import Mathlib

/-!
Verification development for the wormhole-svm guardian node.

This file gives a shallow embedding, in Lean, of the parts of the Go source
that the verified properties talk about:

* the CCQ (cross chain query) request codec and validator
  (`QueryRequest`, `PerChainQueryRequest`, `SolanaAccountQueryRequest`,
  `SolanaPdaQueryRequest` with their `Marshal` / `Unmarshal` / `Validate` /
  `Equal` methods),
* the CCQ signing-digest computation (`QueryRequestDigest`),
* the governance body codecs (`BodyContractUpgrade`, `BodyGuardianSetUpdate`),
* the admin RPC helpers (`adminGuardianSetUpdateToVAA`, `fetchMissing`,
  `FindMissingMessages`),
* the signed-VAA store purge (`PurgeVaas`),
* the governor branch of the aggregation processor loop (`Processor.Run`).

Go byte strings are embedded as `List Nat` (each entry a byte value), Go
unsigned integers as `Nat` with explicit `% 2 ^ w` reductions where the Go
code converts or could overflow, and fallible Go functions as `Option` /
`Except` valued Lean functions.
-/

/-! ### Byte-level primitives

The Go code serializes with `binary.Write(buf, binary.BigEndian, v)` (via
`vaa.MustWrite`) and deserializes with `binary.Read` / `bytes.Reader.Read`.
-/

/-- Big-endian interpretation of a byte list, as computed by reading bytes
most significant first. -/
def bytesToNatBE (bs : List Nat) : Nat :=
  bs.foldl (fun a b => a * 256 + b) 0

/-- `natToBytesBE k n` is the `k`-byte big-endian encoding of `n % 256 ^ k`;
this is what `binary.Write` with a `k`-byte unsigned integer emits (Go integer
conversions such as `uint8(len)` truncate, which the `%` mirrors). -/
def natToBytesBE : Nat → Nat → List Nat
  | 0, _ => []
  | k + 1, n => natToBytesBE k (n / 256) ++ [n % 256]

/-- `binary.Read` of a `k`-byte big-endian unsigned integer: fails when fewer
than `k` bytes remain, otherwise returns the value and the remaining bytes. -/
def readBE (k : Nat) (bs : List Nat) : Option (Nat × List Nat) :=
  if k ≤ bs.length then some (bytesToNatBE (bs.take k), bs.drop k) else none

/-- The Go pattern `if n, err := reader.Read(buf); err != nil || n != k`:
`bytes.Reader.Read` reports `io.EOF` whenever the reader is exhausted (even
for an empty buffer) and otherwise reads `min k remaining` bytes, so the
pattern fails exactly when the input is empty or shorter than `k`. -/
def goRead (k : Nat) (bs : List Nat) : Option (List Nat × List Nat) :=
  if bs.isEmpty then none
  else if bs.length < k then none
  else some (bs.take k, bs.drop k)

/-- Bytes of a Go string literal. -/
def strBytes (s : String) : List Nat :=
  s.toList.map Char.toNat

/-! ### CCQ data model (node/pkg/query/request.go)

`ChainSpecificQuery` is a Go interface with exactly two implementors
(`SolanaAccountQueryRequest`, type code 4, and `SolanaPdaQueryRequest`, type
code 5); it is embedded as a closed sum.  A `PerChainQueryRequest.Query`
interface field may be `nil`, hence the `Option`. -/

/-- `SolanaAccountQueryRequest`: commitment string, `MinContextSlot`,
`DataSliceOffset`, `DataSliceLength` (all `uint64`) and a list of 32-byte
account keys. -/
structure SolanaAccountQueryRequest where
  commitment : List Nat
  minContextSlot : Nat
  dataSliceOffset : Nat
  dataSliceLength : Nat
  accounts : List (List Nat)
deriving DecidableEq

/-- `SolanaPDAEntry`: a 32-byte program address and a list of seeds. -/
structure SolanaPDAEntry where
  programAddress : List Nat
  seeds : List (List Nat)
deriving DecidableEq

/-- `SolanaPdaQueryRequest`: like the account query but with PDA entries. -/
structure SolanaPdaQueryRequest where
  commitment : List Nat
  minContextSlot : Nat
  dataSliceOffset : Nat
  dataSliceLength : Nat
  pdas : List SolanaPDAEntry
deriving DecidableEq

/-- The closed set of `ChainSpecificQuery` implementors. -/
inductive ChainSpecificQuery where
  | solAccount (q : SolanaAccountQueryRequest)
  | solPda (q : SolanaPdaQueryRequest)
deriving DecidableEq

/-- `Query.Type()`: 4 for `sol_account`, 5 for `sol_pda`. -/
def ChainSpecificQuery.typeCode : ChainSpecificQuery → Nat
  | .solAccount _ => 4
  | .solPda _ => 5

/-- `PerChainQueryRequest`: a `uint16` chain id and a possibly-nil chain
specific query. -/
structure PerChainQueryRequest where
  chainId : Nat
  query : Option ChainSpecificQuery
deriving DecidableEq

/-- `QueryRequest`: a `uint32` nonce and the per-chain queries. -/
structure QueryRequest where
  nonce : Nat
  perChainQueries : List PerChainQueryRequest
deriving DecidableEq

/-! ### CCQ validators (request.go `Validate` methods)

Go `Validate` returns an `error`; the embeddings collapse the error to
`false`.  The chain-id check in `PerChainQueryRequest.Validate` is
`vaa.ChainIDFromString(perChainQuery.ChainId.String())`, i.e. membership of
the chain id in the fixed table of known chains; that table lives in the SDK
`vaa` package, whose defining file is not part of the snapshot, so the
known-chain predicate is taken as a parameter `known` everywhere. -/

/-- `ValidatePerChainQueryRequestType`: only type codes 4 and 5 are valid. -/
def ValidatePerChainQueryRequestType (qt : Nat) : Bool :=
  !(qt != 4 && qt != 5)

/-- `SolanaAccountQueryRequest.Validate`. -/
def SolanaAccountQueryRequest.Validate (saq : SolanaAccountQueryRequest) : Bool :=
  if saq.commitment.length > 12 then false
  else if saq.commitment != strBytes "finalized" then false
  else if saq.dataSliceLength == 0 && saq.dataSliceOffset != 0 then false
  else if saq.accounts.length == 0 then false
  else if saq.accounts.length > 100 then false
  else saq.accounts.all (fun acct => acct.length == 32)

/-- `SolanaPdaQueryRequest.Validate`. -/
def SolanaPdaQueryRequest.Validate (spda : SolanaPdaQueryRequest) : Bool :=
  if spda.commitment.length > 12 then false
  else if spda.commitment != strBytes "finalized" then false
  else if spda.dataSliceLength == 0 && spda.dataSliceOffset != 0 then false
  else if spda.pdas.length == 0 then false
  else if spda.pdas.length > 100 then false
  else spda.pdas.all (fun pda =>
    pda.programAddress.length == 32
    && pda.seeds.length != 0
    && !(pda.seeds.length > 16)
    && pda.seeds.all (fun seed => seed.length != 0 && !(seed.length > 32)))

/-- Dispatch of the interface method `Validate`. -/
def ChainSpecificQuery.Validate : ChainSpecificQuery → Bool
  | .solAccount q => q.Validate
  | .solPda q => q.Validate

/-- `PerChainQueryRequest.Validate` (with the known-chain table as the
parameter `known`, see above). -/
def PerChainQueryRequest.Validate (known : Nat → Bool)
    (pcq : PerChainQueryRequest) : Bool :=
  if !known pcq.chainId then false
  else match pcq.query with
    | none => false
    | some q =>
      if !ValidatePerChainQueryRequestType q.typeCode then false
      else q.Validate

/-- `QueryRequest.Validate`: at least one and at most 255 (`math.MaxUint8`)
per-chain queries, each itself valid. -/
def QueryRequest.Validate (known : Nat → Bool) (qr : QueryRequest) : Bool :=
  if qr.perChainQueries.length == 0 then false
  else if qr.perChainQueries.length > 255 then false
  else qr.perChainQueries.all (PerChainQueryRequest.Validate known)

/-! ### CCQ marshaling (request.go `Marshal` methods) -/

/-- The byte payload written by `SolanaAccountQueryRequest.Marshal` after its
`Validate` call: `uint32` commitment length, commitment bytes, the three
`uint64` fields, `uint8` account count, then the 32-byte accounts. -/
def SolanaAccountQueryRequest.MarshalBody (saq : SolanaAccountQueryRequest) :
    List Nat :=
  natToBytesBE 4 saq.commitment.length ++ saq.commitment
    ++ natToBytesBE 8 saq.minContextSlot
    ++ natToBytesBE 8 saq.dataSliceOffset
    ++ natToBytesBE 8 saq.dataSliceLength
    ++ natToBytesBE 1 saq.accounts.length
    ++ saq.accounts.flatten

/-- `SolanaAccountQueryRequest.Marshal`: validate, then write. -/
def SolanaAccountQueryRequest.Marshal (saq : SolanaAccountQueryRequest) :
    Option (List Nat) :=
  if saq.Validate then some saq.MarshalBody else none

/-- The bytes written for one `SolanaPDAEntry`: program address, `uint8` seed
count, then each seed as `uint32` length plus bytes. -/
def SolanaPDAEntry.MarshalBytes (pda : SolanaPDAEntry) : List Nat :=
  pda.programAddress
    ++ natToBytesBE 1 pda.seeds.length
    ++ (pda.seeds.map (fun seed => natToBytesBE 4 seed.length ++ seed)).flatten

/-- The byte payload written by `SolanaPdaQueryRequest.Marshal` after its
`Validate` call. -/
def SolanaPdaQueryRequest.MarshalBody (spda : SolanaPdaQueryRequest) :
    List Nat :=
  natToBytesBE 4 spda.commitment.length ++ spda.commitment
    ++ natToBytesBE 8 spda.minContextSlot
    ++ natToBytesBE 8 spda.dataSliceOffset
    ++ natToBytesBE 8 spda.dataSliceLength
    ++ natToBytesBE 1 spda.pdas.length
    ++ (spda.pdas.map SolanaPDAEntry.MarshalBytes).flatten

/-- `SolanaPdaQueryRequest.Marshal`: validate, then write. -/
def SolanaPdaQueryRequest.Marshal (spda : SolanaPdaQueryRequest) :
    Option (List Nat) :=
  if spda.Validate then some spda.MarshalBody else none

/-- Dispatch of the interface method `Marshal`. -/
def ChainSpecificQuery.Marshal : ChainSpecificQuery → Option (List Nat)
  | .solAccount q => q.Marshal
  | .solPda q => q.Marshal

/-- `PerChainQueryRequest.Marshal`: validate; write the `uint16` chain id,
the `uint8` type code, the inner query (whose length must fit in a `uint32`)
prefixed by its `uint32` length. -/
def PerChainQueryRequest.Marshal (known : Nat → Bool)
    (pcq : PerChainQueryRequest) : Option (List Nat) :=
  if !pcq.Validate known then none
  else match pcq.query with
    | none => none
    | some q =>
      match q.Marshal with
      | none => none
      | some queryBuf =>
        if queryBuf.length > 2 ^ 32 - 1 then none
        else some (natToBytesBE 2 pcq.chainId
          ++ natToBytesBE 1 q.typeCode
          ++ natToBytesBE 4 queryBuf.length
          ++ queryBuf)

/-- The concatenation of the per-chain marshalings, failing if any fails
(`QueryRequest.Marshal` returns on the first per-chain error). -/
def marshalPerChainList (known : Nat → Bool) :
    List PerChainQueryRequest → Option (List Nat)
  | [] => some []
  | pcq :: rest =>
    match pcq.Marshal known, marshalPerChainList known rest with
    | some b, some bs => some (b ++ bs)
    | _, _ => none

/-- `QueryRequest.Marshal`: validate; write `MSG_VERSION = 1`, the `uint32`
nonce, the `uint8` per-chain count, then each per-chain query. -/
def QueryRequest.Marshal (known : Nat → Bool) (qr : QueryRequest) :
    Option (List Nat) :=
  if !qr.Validate known then none
  else match marshalPerChainList known qr.perChainQueries with
    | none => none
    | some pcs => some (natToBytesBE 1 1
        ++ natToBytesBE 4 qr.nonce
        ++ natToBytesBE 1 qr.perChainQueries.length
        ++ pcs)

/-! ### CCQ unmarshaling (request.go `UnmarshalFromReader` methods) -/

/-- The account-reading loop of
`SolanaAccountQueryRequest.UnmarshalFromReader`. -/
def parseAccounts : Nat → List Nat → Option (List (List Nat) × List Nat)
  | 0, bs => some ([], bs)
  | k + 1, bs =>
    match goRead 32 bs with
    | none => none
    | some (acct, bs1) =>
      match parseAccounts k bs1 with
      | none => none
      | some (rest, bs2) => some (acct :: rest, bs2)

/-- `SolanaAccountQueryRequest.UnmarshalFromReader`: `uint32` commitment
length (at most 12), commitment bytes, three `uint64` fields, `uint8` account
count, then that many 32-byte accounts.  Returns the remaining bytes. -/
def SolanaAccountQueryRequest.Parse (bs : List Nat) :
    Option (SolanaAccountQueryRequest × List Nat) :=
  match readBE 4 bs with
  | none => none
  | some (clen, bs1) =>
    if clen > 12 then none
    else match goRead clen bs1 with
    | none => none
    | some (commitment, bs2) =>
      match readBE 8 bs2 with
      | none => none
      | some (minContextSlot, bs3) =>
        match readBE 8 bs3 with
        | none => none
        | some (dataSliceOffset, bs4) =>
          match readBE 8 bs4 with
          | none => none
          | some (dataSliceLength, bs5) =>
            match readBE 1 bs5 with
            | none => none
            | some (numAccounts, bs6) =>
              match parseAccounts numAccounts bs6 with
              | none => none
              | some (accounts, rest) =>
                some (⟨commitment, minContextSlot, dataSliceOffset,
                  dataSliceLength, accounts⟩, rest)

/-- The seed-reading loop of `SolanaPdaQueryRequest.UnmarshalFromReader`:
each seed is a `uint32` length followed by that many bytes. -/
def parseSeeds : Nat → List Nat → Option (List (List Nat) × List Nat)
  | 0, bs => some ([], bs)
  | k + 1, bs =>
    match readBE 4 bs with
    | none => none
    | some (seedLen, bs1) =>
      match goRead seedLen bs1 with
      | none => none
      | some (seed, bs2) =>
        match parseSeeds k bs2 with
        | none => none
        | some (rest, bs3) => some (seed :: rest, bs3)

/-- The PDA-reading loop of `SolanaPdaQueryRequest.UnmarshalFromReader`:
each entry is a 32-byte program address, a `uint8` seed count, and the
seeds. -/
def parsePDAs : Nat → List Nat → Option (List SolanaPDAEntry × List Nat)
  | 0, bs => some ([], bs)
  | k + 1, bs =>
    match goRead 32 bs with
    | none => none
    | some (programAddress, bs1) =>
      match readBE 1 bs1 with
      | none => none
      | some (numSeeds, bs2) =>
        match parseSeeds numSeeds bs2 with
        | none => none
        | some (seeds, bs3) =>
          match parsePDAs k bs3 with
          | none => none
          | some (rest, bs4) => some (⟨programAddress, seeds⟩ :: rest, bs4)

/-- `SolanaPdaQueryRequest.UnmarshalFromReader`. -/
def SolanaPdaQueryRequest.Parse (bs : List Nat) :
    Option (SolanaPdaQueryRequest × List Nat) :=
  match readBE 4 bs with
  | none => none
  | some (clen, bs1) =>
    if clen > 12 then none
    else match goRead clen bs1 with
    | none => none
    | some (commitment, bs2) =>
      match readBE 8 bs2 with
      | none => none
      | some (minContextSlot, bs3) =>
        match readBE 8 bs3 with
        | none => none
        | some (dataSliceOffset, bs4) =>
          match readBE 8 bs4 with
          | none => none
          | some (dataSliceLength, bs5) =>
            match readBE 1 bs5 with
            | none => none
            | some (numPDAs, bs6) =>
              match parsePDAs numPDAs bs6 with
              | none => none
              | some (pdas, rest) =>
                some (⟨commitment, minContextSlot, dataSliceOffset,
                  dataSliceLength, pdas⟩, rest)

/-- `PerChainQueryRequest.UnmarshalFromReader`: `uint16` chain id, `uint8`
type code (validated), then the `uint32` query length field — which is read
and discarded ("Skip the query length.") — then the body, dispatched on the
type code. -/
def PerChainQueryRequest.Parse (bs : List Nat) :
    Option (PerChainQueryRequest × List Nat) :=
  match readBE 2 bs with
  | none => none
  | some (chainId, bs1) =>
    match readBE 1 bs1 with
    | none => none
    | some (qt, bs2) =>
      if !ValidatePerChainQueryRequestType qt then none
      else match readBE 4 bs2 with
      | none => none
      | some (_, bs3) =>
        if qt == 4 then
          match SolanaAccountQueryRequest.Parse bs3 with
          | none => none
          | some (q, rest) => some (⟨chainId, some (.solAccount q)⟩, rest)
        else if qt == 5 then
          match SolanaPdaQueryRequest.Parse bs3 with
          | none => none
          | some (q, rest) => some (⟨chainId, some (.solPda q)⟩, rest)
        else none

/-- The per-chain-query reading loop of `QueryRequest.UnmarshalFromReader`. -/
def parsePerChainQueries : Nat → List Nat →
    Option (List PerChainQueryRequest × List Nat)
  | 0, bs => some ([], bs)
  | k + 1, bs =>
    match PerChainQueryRequest.Parse bs with
    | none => none
    | some (pcq, bs1) =>
      match parsePerChainQueries k bs1 with
      | none => none
      | some (rest, bs2) => some (pcq :: rest, bs2)

/-- `QueryRequest.Unmarshal` on a fresh receiver: `uint8` version (must be
`MSG_VERSION = 1`), `uint32` nonce, `uint8` per-chain count, that many
per-chain queries, then the reader must be exactly exhausted
(`reader.Len() != 0` is "excess bytes in unmarshal"), and finally the
unmarshaled request must pass `Validate`. -/
def QueryRequest.Unmarshal (known : Nat → Bool) (data : List Nat) :
    Option QueryRequest :=
  match readBE 1 data with
  | none => none
  | some (version, bs1) =>
    if version != 1 then none
    else match readBE 4 bs1 with
    | none => none
    | some (nonce, bs2) =>
      match readBE 1 bs2 with
      | none => none
      | some (count, bs3) =>
        match parsePerChainQueries count bs3 with
        | none => none
        | some (pcqs, rest) =>
          if !rest.isEmpty then none
          else if QueryRequest.Validate known ⟨nonce, pcqs⟩ then
            some ⟨nonce, pcqs⟩
          else none

/-! ### CCQ equality (request.go `Equal` methods) -/

/-- `SolanaAccountQueryRequest.Equal`. -/
def SolanaAccountQueryRequest.Equal
    (l r : SolanaAccountQueryRequest) : Bool :=
  if l.commitment != r.commitment
      || l.minContextSlot != r.minContextSlot
      || l.dataSliceOffset != r.dataSliceOffset
      || l.dataSliceLength != r.dataSliceLength then false
  else if l.accounts.length != r.accounts.length then false
  else (l.accounts.zip r.accounts).all (fun p => p.1 == p.2)

/-- `SolanaPdaQueryRequest.Equal`. -/
def SolanaPdaQueryRequest.Equal (l r : SolanaPdaQueryRequest) : Bool :=
  if l.commitment != r.commitment
      || l.minContextSlot != r.minContextSlot
      || l.dataSliceOffset != r.dataSliceOffset
      || l.dataSliceLength != r.dataSliceLength then false
  else if l.pdas.length != r.pdas.length then false
  else (l.pdas.zip r.pdas).all (fun p =>
    p.1.programAddress == p.2.programAddress
    && p.1.seeds.length == p.2.seeds.length
    && (p.1.seeds.zip p.2.seeds).all (fun s => s.1 == s.2))

/-- `PerChainQueryRequest.Equal`: chain ids equal, both queries nil or both
non-nil of the same type with equal contents (the Go type switch panics on a
mismatched variant pair, which cannot arise after its `Type()` equality
check; the closed sum makes this structural). -/
def PerChainQueryRequest.Equal (l r : PerChainQueryRequest) : Bool :=
  if l.chainId != r.chainId then false
  else match l.query, r.query with
    | none, none => true
    | none, some _ => false
    | some _, none => false
    | some (.solAccount a), some (.solAccount b) => a.Equal b
    | some (.solPda a), some (.solPda b) => a.Equal b
    | some _, some _ => false

/-- `QueryRequest.Equal`. -/
def QueryRequest.Equal (l r : QueryRequest) : Bool :=
  if l.nonce != r.nonce then false
  else if l.perChainQueries.length != r.perChainQueries.length then false
  else (l.perChainQueries.zip r.perChainQueries).all
    (fun p => p.1.Equal p.2)

/-! ### Go typing side conditions

The Go structs constrain what the `Nat` / `List Nat` embedding does not:
`Nonce` is a `uint32`, `ChainId` a `uint16`, the slot and slice fields are
`uint64`, and accounts / program addresses are `[32]byte` fixed arrays.
These predicates carve out exactly the Lean values that denote Go values. -/

/-- Go typing of a `SolanaAccountQueryRequest`. -/
def SolanaAccountQueryRequest.GoWellTyped
    (saq : SolanaAccountQueryRequest) : Bool :=
  decide (saq.minContextSlot < 2 ^ 64)
    && decide (saq.dataSliceOffset < 2 ^ 64)
    && decide (saq.dataSliceLength < 2 ^ 64)
    && saq.accounts.all (fun acct => acct.length == 32)

/-- Go typing of a `SolanaPdaQueryRequest`. -/
def SolanaPdaQueryRequest.GoWellTyped (spda : SolanaPdaQueryRequest) : Bool :=
  decide (spda.minContextSlot < 2 ^ 64)
    && decide (spda.dataSliceOffset < 2 ^ 64)
    && decide (spda.dataSliceLength < 2 ^ 64)
    && spda.pdas.all (fun pda => pda.programAddress.length == 32)

/-- Go typing of a `PerChainQueryRequest`. -/
def PerChainQueryRequest.GoWellTyped (pcq : PerChainQueryRequest) : Bool :=
  decide (pcq.chainId < 2 ^ 16)
    && match pcq.query with
      | none => true
      | some (.solAccount q) => q.GoWellTyped
      | some (.solPda q) => q.GoWellTyped

/-- Go typing of a `QueryRequest`. -/
def QueryRequest.GoWellTyped (qr : QueryRequest) : Bool :=
  decide (qr.nonce < 2 ^ 32)
    && qr.perChainQueries.all PerChainQueryRequest.GoWellTyped

/-! ### Keccak-256 (go-ethereum `crypto.Keccak256Hash`)

`QueryRequestDigest` hashes with the go-ethereum library's legacy Keccak-256
(the original Keccak with `0x01` multi-rate padding, rate 136 bytes).  The
library is external to the repository; the permutation below is implemented
from the Keccak specification, on `Nat` lanes reduced mod `2 ^ 64`. -/

/-- 64-bit left rotation. -/
def rotl64 (x r : Nat) : Nat :=
  ((x <<< r) ||| (x >>> (64 - r))) % 2 ^ 64

/-- One step of the degree-8 LFSR of FIPS 202 Algorithm 5 (`rc`). -/
def keccakLfsrStep (r : Nat) : Nat :=
  if r &&& 0x80 != 0 then ((r <<< 1) ^^^ 0x71) &&& 0xFF else (r <<< 1) &&& 0xFF

/-- `rc(t)`: bit `t` of the LFSR output stream (register seeded with 1). -/
def keccakRcBit (t : Nat) : Nat :=
  (Nat.rec 1 (fun _ r => keccakLfsrStep r) t : Nat) &&& 1

/-- The 24 Keccak-f[1600] round constants, generated per FIPS 202:
lane `i` has bit `2 ^ j - 1` set iff `rc(7 i + j)` is set, `j = 0..6`. -/
def keccakRC : List Nat :=
  (List.range 24).map (fun i =>
    (List.range 7).foldl
      (fun acc j => acc ||| (keccakRcBit (7 * i + j) <<< (2 ^ j - 1))) 0)

/-- The rho rotation offsets, indexed by `x + 5 * y`, generated per FIPS 202
Algorithm 2: starting from `(1, 0)`, step `t` assigns offset
`(t + 1)(t + 2) / 2 mod 64` and moves to `(y, 2x + 3y mod 5)`;
lane `(0, 0)` keeps offset 0. -/
def keccakRot : List Nat :=
  ((List.range 24).foldl
    (fun acc t =>
      let tbl := acc.1
      let x := acc.2.1
      let y := acc.2.2
      (tbl.set (x + 5 * y) ((t + 1) * (t + 2) / 2 % 64), y, (2 * x + 3 * y) % 5))
    (List.replicate 25 0, 1, 0)).1

/-- One Keccak-f round (theta, rho, pi, chi, iota) on a 25-lane state. -/
def keccakRound (s : List Nat) (rc : Nat) : List Nat :=
  let a := fun x y => s.getD (x + 5 * y) 0
  let c := fun x => a x 0 ^^^ a x 1 ^^^ a x 2 ^^^ a x 3 ^^^ a x 4
  let d := fun x => c ((x + 4) % 5) ^^^ rotl64 (c ((x + 1) % 5)) 1
  let a1 := fun x y => a x y ^^^ d x
  let b := fun x y =>
    rotl64 (a1 ((x + 3 * y) % 5) x) (keccakRot.getD ((x + 3 * y) % 5 + 5 * x) 0)
  let a2 := fun x y =>
    b x y ^^^ ((b ((x + 1) % 5) y ^^^ (2 ^ 64 - 1)) &&& b ((x + 2) % 5) y)
  (List.range 25).map (fun i =>
    let x := i % 5
    let y := i / 5
    if i = 0 then a2 0 0 ^^^ rc else a2 x y)

/-- The full Keccak-f[1600] permutation. -/
def keccakF (s : List Nat) : List Nat :=
  keccakRC.foldl keccakRound s

/-- Little-endian interpretation of (up to 8) bytes as a 64-bit lane. -/
def bytesToLaneLE (bs : List Nat) : Nat :=
  bs.foldr (fun b acc => acc * 256 + b) 0

/-- The 8 little-endian bytes of a 64-bit lane. -/
def laneToBytesLE (n : Nat) : List Nat :=
  (List.range 8).map (fun i => (n >>> (8 * i)) % 256)

/-- XOR one 136-byte block into the state and permute. -/
def absorbBlock (s block : List Nat) : List Nat :=
  keccakF ((List.range 25).map (fun i =>
    s.getD i 0 ^^^ bytesToLaneLE ((block.drop (8 * i)).take 8)))

/-- Absorb `k` blocks of 136 bytes. -/
def keccakAbsorbBlocks : Nat → List Nat → List Nat → List Nat
  | 0, s, _ => s
  | k + 1, s, msg => keccakAbsorbBlocks k (absorbBlock s (msg.take 136)) (msg.drop 136)

/-- Keccak `0x01` multi-rate padding to a multiple of 136 bytes. -/
def keccakPad (msg : List Nat) : List Nat :=
  let padLen := 136 - msg.length % 136
  msg ++ (if padLen == 1 then [0x81]
    else 0x01 :: (List.replicate (padLen - 2) 0 ++ [0x80]))

/-- Keccak-256 of a byte string (the hash used by
`ethCrypto.Keccak256Hash`). -/
def keccak256 (msg : List Nat) : List Nat :=
  let padded := keccakPad msg
  let s := keccakAbsorbBlocks (padded.length / 136) (List.replicate 25 0) padded
  ((List.range 4).map (fun i => laneToBytesLE (s.getD i 0))).flatten

/-! ### CCQ signing digest (request.go `QueryRequestDigest`) -/

/-- The environment tag.  Modelled from the spec: the environment is one of
`UnsafeDevNet`, `TestNet`, `MainNet` (the `common.Environment` definition is
not part of the snapshot); the development constructor is named `DevNet`
here. -/
inductive CommonEnvironment where
  | DevNet
  | TestNet
  | MainNet
deriving DecidableEq

/-- `QueryRequestDigest`: keccak256 of a fixed 35-byte environment-dependent
query-signing prefix concatenated with the given bytes. -/
def QueryRequestDigest (env : CommonEnvironment) (b : List Nat) : List Nat :=
  let p :=
    if env = CommonEnvironment.MainNet then
      strBytes "mainnet_query_request_000000000000|"
    else if env = CommonEnvironment.TestNet then
      strBytes "testnet_query_request_000000000000|"
    else
      strBytes "devnet_query_request_0000000000000|"
  keccak256 (p ++ b)

/-! ### Governance body codecs (sdk/vaa/payloads.go) -/

/-- `CoreModule`: the 32-byte module identifier, "Core" left padded with
zeroes. -/
def CoreModule : List Nat :=
  [0, 0, 0, 0, 0, 0, 0, 0, 0, 0, 0, 0, 0, 0, 0, 0, 0, 0, 0, 0, 0, 0, 0, 0,
   0, 0, 0, 0, 0x43, 0x6f, 0x72, 0x65]

/-- `ActionContractUpgrade = 1`. -/
def ActionContractUpgrade : Nat := 1

/-- `ActionGuardianSetUpdate = 2`. -/
def ActionGuardianSetUpdate : Nat := 2

/-- `BodyContractUpgrade`: chain id (`uint16`) and 32-byte new contract
address. -/
structure BodyContractUpgrade where
  chainID : Nat
  newContract : List Nat
deriving DecidableEq

/-- `BodyContractUpgrade.Serialize`: module, `uint8` action 1, `uint16` chain
id, new contract address. -/
def BodyContractUpgrade.Serialize (b : BodyContractUpgrade) : List Nat :=
  CoreModule ++ natToBytesBE 1 ActionContractUpgrade
    ++ natToBytesBE 2 b.chainID ++ b.newContract

/-- `BodyGuardianSetUpdate`: the new 20-byte guardian keys and the `uint32`
new set index. -/
structure BodyGuardianSetUpdate where
  keys : List (List Nat)
  newIndex : Nat
deriving DecidableEq

/-- `BodyGuardianSetUpdate.Serialize`: module, `uint8` action 2, `uint16`
chain id 0 (universal), `uint32` new index, `uint8` key count, then the keys
in order. -/
def BodyGuardianSetUpdate.Serialize (b : BodyGuardianSetUpdate) : List Nat :=
  CoreModule ++ natToBytesBE 1 ActionGuardianSetUpdate ++ natToBytesBE 2 0
    ++ natToBytesBE 4 b.newIndex ++ natToBytesBE 1 b.keys.length
    ++ b.keys.flatten

/-! ### Admin service: guardian-set update to VAA (adminrpc/adminserver.go) -/

/-- One entry of a `nodev1.GuardianSetUpdate`: a public key as a hex string
and a display name. -/
structure GuardianUpdateEntry where
  pubkey : List Nat
  name : List Nat
deriving DecidableEq

/-- A `nodev1.GuardianSetUpdate` request. -/
structure GuardianSetUpdateReq where
  guardians : List GuardianUpdateEntry
deriving DecidableEq

/-- `common.MaxGuardianCount`.  Modelled from the spec: the guardian-count
bound used by the admin service; its defining file is not in the snapshot
(the concrete value is irrelevant to the properties proved here). -/
def MaxGuardianCount : Nat := 19

/-- `has0xPrefix` of go-ethereum: the string starts with `0x` or `0X`. -/
def hexHas0x (s : List Nat) : Bool :=
  match s with
  | a :: b :: _ => a == 48 && (b == 120 || b == 88)
  | _ => false

/-- One byte is an ASCII hex digit. -/
def isHexDigitByte (c : Nat) : Bool :=
  (48 ≤ c && c ≤ 57) || (97 ≤ c && c ≤ 102) || (65 ≤ c && c ≤ 70)

/-- `ethcommon.IsHexAddress` (go-ethereum, external library): optionally
strip `0x`, then require exactly 40 hex digits. -/
def IsHexAddress (s : List Nat) : Bool :=
  let t := if hexHas0x s then s.drop 2 else s
  t.length == 40 && t.all isHexDigitByte

/-- Value of an ASCII hex digit. -/
def hexDigitVal (c : Nat) : Nat :=
  if c ≤ 57 then c - 48 else if c ≤ 70 then c - 55 else c - 87

/-- Decode pairs of hex digits into bytes. -/
def hexDecodePairs : List Nat → List Nat
  | a :: b :: rest => (hexDigitVal a * 16 + hexDigitVal b) :: hexDecodePairs rest
  | _ => []

/-- `ethcommon.HexToAddress` (go-ethereum, external library) on strings that
pass `IsHexAddress`: strip an optional `0x` and hex-decode to 20 bytes. -/
def HexToAddress (s : List Nat) : List Nat :=
  hexDecodePairs (if hexHas0x s then s.drop 2 else s)

/-- The 20-byte zero address (`ethcommon.Address` zero value). -/
def zeroEthAddr : List Nat := List.replicate 20 0

/-- The address-building loop of `adminGuardianSetUpdateToVAA`: the Go code
allocates `addrs` zero-initialized with one slot per guardian, and for each
guardian checks `IsHexAddress`, then scans the whole `addrs` array (set and
still-zero slots alike) for a duplicate of the decoded address before storing
it at its index.  Error messages elide the Go `fmt` interpolations. -/
def buildGuardianAddrs : List GuardianUpdateEntry → Nat → List (List Nat) →
    Except (List Nat) (List (List Nat))
  | [], _, addrs => .ok addrs
  | g :: rest, i, addrs =>
    if !IsHexAddress g.pubkey then .error (strBytes "invalid pubkey format")
    else
      let ethAddr := HexToAddress g.pubkey
      if addrs.contains ethAddr then .error (strBytes "duplicate pubkey")
      else buildGuardianAddrs rest (i + 1) (addrs.set i ethAddr)

/-- The VAA assembled by the admin service.  The signature list is empty at
creation time. -/
structure AdminVAA where
  timestamp : Nat
  nonce : Nat
  sequence : Nat
  guardianSetIndex : Nat
  payload : List Nat
deriving DecidableEq

/-- Modelled from the spec: `vaa.CreateGovernanceVAA` builds an unsigned
governance VAA carrying the given timestamp, nonce, sequence, guardian-set
index and payload (its defining file, in the SDK `vaa` package, is not part
of the snapshot; the governance emitter fields are omitted as no property
here depends on them). -/
def CreateGovernanceVAA (timestamp nonce sequence guardianSetIndex : Nat)
    (payload : List Nat) : AdminVAA :=
  ⟨timestamp, nonce, sequence, guardianSetIndex, payload⟩

/-- `adminGuardianSetUpdateToVAA`: reject an empty or oversized guardian
list, decode and deduplicate the hex keys, then build the governance VAA
whose payload is the serialized guardian-set update with
`NewIndex = guardianSetIndex + 1`. -/
def adminGuardianSetUpdateToVAA (req : GuardianSetUpdateReq)
    (timestamp guardianSetIndex nonce sequence : Nat) :
    Except (List Nat) AdminVAA :=
  if req.guardians.length == 0 then
    .error (strBytes "empty guardian set specified")
  else if req.guardians.length > MaxGuardianCount then
    .error (strBytes "too many guardians")
  else
    match buildGuardianAddrs req.guardians 0
        (List.replicate req.guardians.length zeroEthAddr) with
    | .error e => .error e
    | .ok addrs =>
      .ok (CreateGovernanceVAA timestamp nonce sequence guardianSetIndex
        (BodyGuardianSetUpdate.Serialize ⟨addrs, guardianSetIndex + 1⟩))

/-! ### Signed-VAA store purge (db package)

Only the tests of `db.PurgeVaas` are part of the snapshot; the operation
itself is modelled from the spec. -/

/-- A stored VAA, reduced to the fields purge looks at: its store key
`(emitter_chain, emitter_address, sequence)` and its timestamp. -/
structure StoredVAA where
  emitterChain : Nat
  emitterAddress : List Nat
  sequence : Nat
  timestamp : Nat
deriving DecidableEq

/-- A `db.VAAID` used as a purge prefix: a chain, and optionally an emitter
address (the Go zero-address `VAAID` denotes the whole chain). -/
structure VAAIDPrefix where
  emitterChain : Nat
  emitterAddress : Option (List Nat)
deriving DecidableEq

/-- Whether a stored VAA's key lies under the prefix. -/
def prefixMatches (p : VAAIDPrefix) (v : StoredVAA) : Bool :=
  v.emitterChain == p.emitterChain
    && (match p.emitterAddress with
      | none => true
      | some a => v.emitterAddress == a)

/-- Modelled from the spec: `purge(prefix, older_than, dry_run)` deletes (or,
when `dry_run`, merely counts) all keys in the prefix whose stored VAA's
`timestamp` is strictly before `older_than`.  The badger-backed `PurgeVaas`
implementation is not part of the snapshot (only its tests are); the store is
modelled as the list of stored VAAs.  Returns the affected count and the
resulting store. -/
def PurgeVaas (p : VAAIDPrefix) (olderThan : Nat) (dryRun : Bool)
    (store : List StoredVAA) : Nat × List StoredVAA :=
  let doomed := store.filter (fun v => prefixMatches p v && v.timestamp < olderThan)
  (doomed.length,
   if dryRun then store
   else store.filter (fun v => !(prefixMatches p v && v.timestamp < olderThan)))

/-! ### RPC backfill (adminrpc `fetchMissing` / `FindMissingMessages`)

`fetchMissing` shuffles the node list (`rand.Shuffle`), creates **one**
1-second deadline context (`context.WithTimeout(ctx, time.Second)` before the
loop), and then tries the nodes in order.  The embedding takes the
post-shuffle node order as input, measures time in milliseconds, and encodes
each node's behaviour as a latency plus an HTTP-level reply. -/

/-- What one backfill node answers: a well-formed `200` (`okVaa`), a `200`
whose JSON or base64 body fails to decode (`badBody`), a `404` (`notFound`),
any other HTTP status such as a 5xx (`otherStatus`), or a transport error
from `c.Do` other than the shared deadline expiring (`transportErr`). -/
inductive NodeReply where
  | okVaa (bytes : List Nat)
  | badBody
  | notFound
  | otherStatus (code : Nat)
  | transportErr
deriving DecidableEq

/-- One backfill node: how long its request takes (ms) and its reply. -/
structure BackfillNode where
  latency : Nat
  reply : NodeReply
deriving DecidableEq

/-- The result of `fetchMissing` for one sequence: gap filled (the VAA bytes
were injected into the signed-VAA channel and `(true, nil)` returned), not
filled (`(false, nil)` after exhausting all nodes), or failed (`(false, err)`,
which happens only on the `default` branch of the status switch). -/
inductive FetchOutcome where
  | filled (injected : List Nat)
  | notFilled
  | failed
deriving DecidableEq

/-- The node loop of `fetchMissing`.  `elapsed` is the time consumed of the
single shared 1000 ms deadline: a request that cannot complete before the
deadline fails in `c.Do` (context deadline exceeded) and the loop continues
with the next node, with the clock pinned at the deadline; otherwise the
reply is handled — `transportErr`, `404` and a bad `200` body continue with
the next node, a good `200` returns `filled`, and any other status returns an
error immediately. -/
def fetchMissingLoop : List BackfillNode → Nat → FetchOutcome
  | [], _ => .notFilled
  | n :: rest, elapsed =>
    if 1000 ≤ elapsed || 1000 < elapsed + n.latency then
      fetchMissingLoop rest 1000
    else
      let e := elapsed + n.latency
      match n.reply with
      | .transportErr => fetchMissingLoop rest e
      | .notFound => fetchMissingLoop rest e
      | .badBody => fetchMissingLoop rest e
      | .okVaa b => .filled b
      | .otherStatus _ => .failed

/-- `fetchMissing` on the (already shuffled) node list. -/
def fetchMissing (nodes : List BackfillNode) : FetchOutcome :=
  fetchMissingLoop nodes 0

/-- Result of the backfill phase of `FindMissingMessages`: either the list of
sequences still missing, or a gRPC `Internal` error. -/
inductive FindMissingResult where
  | ok (missing : List Nat)
  | error
deriving DecidableEq

/-- The backfill loop of `FindMissingMessages` (`req.RpcBackfill = true`):
for each missing sequence call `fetchMissing`; a fetch error aborts the whole
RPC with an error, a filled gap drops the sequence, and an unfilled one is
kept in the `unfilled` list that the RPC returns. -/
def findMissingBackfill (fetch : Nat → FetchOutcome) :
    List Nat → FindMissingResult
  | [] => .ok []
  | id :: rest =>
    match fetch id with
    | .failed => .error
    | .filled _ => findMissingBackfill fetch rest
    | .notFilled =>
      match findMissingBackfill fetch rest with
      | .ok ms => .ok (id :: ms)
      | .error => .error

/-! ### Processor governor branch (processor/processor.go `Run`)

The `govTimer` branch: `CheckPending` returns the list of now-due messages;
each is re-checked with `IsGovernedMsg` before `handleMessage` publishes it;
an `IsGovernedMsg` error or `false` makes `Run` return an error (supervised
restart) without handling that or any later entry.  Messages are embedded
abstractly as `Nat` identities and `handleMessage` as appending to the list
of published messages. -/

/-- The outcome of the branch: either all entries were published and the loop
continues, or it returned an error after publishing only a prefix. -/
inductive GovStepOutcome where
  | ok (published : List Nat)
  | fatal (published : List Nat)
deriving DecidableEq

/-- The defense-in-depth loop over `toBePublished`.  `isGoverned k = none`
embeds `IsGovernedMsg` returning an error. -/
def governorCheckPendingStep (isGoverned : Nat → Option Bool) :
    List Nat → GovStepOutcome
  | [] => .ok []
  | k :: rest =>
    match isGoverned k with
    | none => .fatal []
    | some false => .fatal []
    | some true =>
      match governorCheckPendingStep isGoverned rest with
      | .ok pub => .ok (k :: pub)
      | .fatal pub => .fatal (k :: pub)

/-! ### Concrete store for the purge scenario (S5 of the spec) -/

/-- First demo emitter address (32 bytes ending in 1). -/
def purgeDemoEmitter1 : List Nat := List.replicate 31 0 ++ [1]

/-- Second demo emitter address (32 bytes ending in 2). -/
def purgeDemoEmitter2 : List Nat := List.replicate 31 0 ++ [2]

/-- A store with, for each of the two emitters on chain 1, 50 VAAs stamped
before the cutoff (timestamp 100) and 75 stamped after it (timestamp 300),
with consecutive sequences from 10000. -/
def purgeDemoStore : List StoredVAA :=
  (List.range 50).map (fun i => ⟨1, purgeDemoEmitter1, 10000 + i, 100⟩)
    ++ (List.range 75).map (fun i => ⟨1, purgeDemoEmitter1, 10050 + i, 300⟩)
    ++ (List.range 50).map (fun i => ⟨1, purgeDemoEmitter2, 10000 + i, 100⟩)
    ++ (List.range 75).map (fun i => ⟨1, purgeDemoEmitter2, 10050 + i, 300⟩)

/-! ### Spec-side validator conditions (for the validator characterization)

`SpecClaimedPerChainValid` renders, in the spec's own words, the conditions
the specification claims the validator enforces on one per-chain query; it is
deliberately written from the spec text, to be compared against the
source-derived `Validate` functions. -/

/-- The spec's conditions on one per-chain query: a known chain id; a non-nil
query of type `sol_account` (4) or `sol_pda` (5); commitment at most 12 bytes
and exactly "finalized"; `data_slice_offset` zero whenever
`data_slice_length` is zero; between 1 and 100 accounts or PDAs; and every
PDA with 1 to 16 seeds of 1 to 32 bytes each. -/
def SpecClaimedPerChainValid (known : Nat → Bool)
    (pcq : PerChainQueryRequest) : Prop :=
  known pcq.chainId = true ∧
  match pcq.query with
  | none => False
  | some (.solAccount saq) =>
      saq.commitment.length ≤ 12 ∧ saq.commitment = strBytes "finalized"
      ∧ (saq.dataSliceLength = 0 → saq.dataSliceOffset = 0)
      ∧ 1 ≤ saq.accounts.length ∧ saq.accounts.length ≤ 100
  | some (.solPda spda) =>
      spda.commitment.length ≤ 12 ∧ spda.commitment = strBytes "finalized"
      ∧ (spda.dataSliceLength = 0 → spda.dataSliceOffset = 0)
      ∧ 1 ≤ spda.pdas.length ∧ spda.pdas.length ≤ 100
      ∧ ∀ pda ∈ spda.pdas, 1 ≤ pda.seeds.length ∧ pda.seeds.length ≤ 16
          ∧ ∀ s ∈ pda.seeds, 1 ≤ s.length ∧ s.length ≤ 32

/-! ### Concrete CCQ requests for witnesses -/

/-- A 32-byte zero account key. -/
def demoAccountKey : List Nat := List.replicate 32 0

/-- A valid demo `sol_account` query. -/
def demoSolAccountReq : SolanaAccountQueryRequest :=
  ⟨strBytes "finalized", 0, 0, 0, [demoAccountKey]⟩

/-- A valid demo per-chain query on chain 1. -/
def demoPerChainReq : PerChainQueryRequest :=
  ⟨1, some (.solAccount demoSolAccountReq)⟩

/-- A valid demo query request. -/
def demoQueryRequest : QueryRequest := ⟨42, [demoPerChainReq]⟩

/-! ## Theorems -/

/-! ### Byte-level lemmas -/

theorem length_natToBytesBE (k n : Nat) : (natToBytesBE k n).length = k := by
  induction k generalizing n with
  | zero => rfl
  | succ k ih => simp [natToBytesBE, ih]

theorem bytesToNatBE_snoc (xs : List Nat) (b : Nat) :
    bytesToNatBE (xs ++ [b]) = bytesToNatBE xs * 256 + b := by
  simp [bytesToNatBE, List.foldl_append]

theorem bytesToNatBE_natToBytesBE (k n : Nat) :
    bytesToNatBE (natToBytesBE k n) = n % 256 ^ k := by
  induction k generalizing n with
  | zero => simp [natToBytesBE, bytesToNatBE, Nat.mod_one]
  | succ k ih =>
    rw [natToBytesBE, bytesToNatBE_snoc, ih,
      show (256 : Nat) ^ (k + 1) = 256 * 256 ^ k from by ring, Nat.mod_mul]
    ring

theorem readBE_append (k n : Nat) (rest : List Nat) :
    readBE k (natToBytesBE k n ++ rest) = some (n % 256 ^ k, rest) := by
  unfold readBE
  rw [if_pos (by simp [length_natToBytesBE])]
  rw [List.take_left' (length_natToBytesBE k n),
    List.drop_left' (length_natToBytesBE k n), bytesToNatBE_natToBytesBE]

theorem readBE_append_of_lt (k n : Nat) (rest : List Nat) (h : n < 256 ^ k) :
    readBE k (natToBytesBE k n ++ rest) = some (n, rest) := by
  rw [readBE_append, Nat.mod_eq_of_lt h]

theorem goRead_append (k : Nat) (bs rest : List Nat) (hk : 0 < k)
    (h : bs.length = k) : goRead k (bs ++ rest) = some (bs, rest) := by
  unfold goRead
  rw [if_neg (by simp [List.isEmpty_iff, h]; intro hbs; simp [hbs] at h; omega)]
  rw [if_neg (by simp [h])]
  rw [List.take_left' h, List.drop_left' h]

theorem flatten_length_le (l : List (List Nat)) (b : Nat)
    (h : ∀ x ∈ l, x.length ≤ b) : l.flatten.length ≤ l.length * b := by
  induction l with
  | nil => simp
  | cons x xs ih =>
    simp only [List.flatten_cons, List.length_append, List.length_cons,
      Nat.succ_mul]
    have h1 : x.length ≤ b := h x (by simp)
    have h2 : xs.flatten.length ≤ xs.length * b :=
      ih (fun y hy => h y (by simp [hy]))
    omega

theorem zip_self_all {α : Type} (l : List α) (f : α × α → Bool)
    (h : ∀ x ∈ l, f (x, x) = true) : (l.zip l).all f = true := by
  induction l with
  | nil => rfl
  | cons x xs ih =>
    simp only [List.zip_cons_cons, List.all_cons, Bool.and_eq_true]
    exact ⟨h x (by simp), ih (fun y hy => h y (by simp [hy]))⟩

/-! ### Claim theorems: governance bodies, digest, admin service -/

/-- Claim C5: `BodyContractUpgrade{ChainID: 1, NewContract: 0x…04}` serializes
exactly to the S2 hex vector (32-byte left-zero-padded "Core" module, action
byte 1, `uint16` chain 1, the 32-byte contract address), and
`BodyGuardianSetUpdate` with the two given 20-byte keys and new index 1
serializes exactly to the S3 hex vector (module, action byte 2, `uint16`
chain 0, `uint32` new index 1, `uint8` key count 2, the keys in order). -/
theorem governance_body_serialize_vectors :
    BodyContractUpgrade.Serialize
        ⟨1, [0, 0, 0, 0, 0, 0, 0, 0, 0, 0, 0, 0, 0, 0, 0, 0, 0, 0, 0, 0, 0,
          0, 0, 0, 0, 0, 0, 0, 0, 0, 0, 4]⟩
      = [0, 0, 0, 0, 0, 0, 0, 0, 0, 0, 0, 0, 0, 0, 0, 0, 0, 0, 0, 0, 0, 0, 0,
         0, 0, 0, 0, 0, 0x43, 0x6f, 0x72, 0x65, 0x01, 0x00, 0x01, 0, 0, 0, 0,
         0, 0, 0, 0, 0, 0, 0, 0, 0, 0, 0, 0, 0, 0, 0, 0, 0, 0, 0, 0, 0, 0, 0,
         0, 0, 0, 0, 0x04]
    ∧ BodyGuardianSetUpdate.Serialize
        ⟨[[0x5a, 0xae, 0xb6, 0x05, 0x3f, 0x3e, 0x94, 0xc9, 0xb9, 0xa0, 0x9f,
           0x33, 0x66, 0x94, 0x35, 0xe7, 0xef, 0x1b, 0xea, 0xed],
          [0x5a, 0xae, 0xb6, 0x05, 0x3f, 0x3e, 0x94, 0xc9, 0xb9, 0xa0, 0x9f,
           0x33, 0x66, 0x94, 0x35, 0xe7, 0xef, 0x1b, 0xea, 0xee]], 1⟩
      = [0, 0, 0, 0, 0, 0, 0, 0, 0, 0, 0, 0, 0, 0, 0, 0, 0, 0, 0, 0, 0, 0, 0,
         0, 0, 0, 0, 0, 0x43, 0x6f, 0x72, 0x65, 0x02, 0x00, 0x00, 0x00, 0x00,
         0x00, 0x01, 0x02, 0x5a, 0xae, 0xb6, 0x05, 0x3f, 0x3e, 0x94, 0xc9,
         0xb9, 0xa0, 0x9f, 0x33, 0x66, 0x94, 0x35, 0xe7, 0xef, 0x1b, 0xea,
         0xed, 0x5a, 0xae, 0xb6, 0x05, 0x3f, 0x3e, 0x94, 0xc9, 0xb9, 0xa0,
         0x9f, 0x33, 0x66, 0x94, 0x35, 0xe7, 0xef, 0x1b, 0xea, 0xee] := by
  constructor
  · decide
  · decide

/-- Claim C6: for every byte string `b`, `QueryRequestDigest(env, b)` is
`keccak256(prefix ++ b)` where the prefix is the fixed 35-byte string
"mainnet_query_request_000000000000|" for MainNet,
"testnet_query_request_000000000000|" for TestNet, and
"devnet_query_request_0000000000000|" for every other environment value. -/
theorem queryRequestDigest_prefix_spec (b : List Nat) :
    QueryRequestDigest .MainNet b
        = keccak256 ([109, 97, 105, 110, 110, 101, 116, 95, 113, 117, 101,
            114, 121, 95, 114, 101, 113, 117, 101, 115, 116, 95, 48, 48, 48,
            48, 48, 48, 48, 48, 48, 48, 48, 48, 124] ++ b)
    ∧ QueryRequestDigest .TestNet b
        = keccak256 ([116, 101, 115, 116, 110, 101, 116, 95, 113, 117, 101,
            114, 121, 95, 114, 101, 113, 117, 101, 115, 116, 95, 48, 48, 48,
            48, 48, 48, 48, 48, 48, 48, 48, 48, 124] ++ b)
    ∧ QueryRequestDigest .DevNet b
        = keccak256 ([100, 101, 118, 110, 101, 116, 95, 113, 117, 101, 114,
            121, 95, 114, 101, 113, 117, 101, 115, 116, 95, 48, 48, 48, 48,
            48, 48, 48, 48, 48, 48, 48, 48, 48, 124] ++ b)
    ∧ (strBytes "mainnet_query_request_000000000000|").length = 35
    ∧ (strBytes "testnet_query_request_000000000000|").length = 35
    ∧ (strBytes "devnet_query_request_0000000000000|").length = 35 := by
  refine ⟨?_, ?_, ?_, by decide, by decide, by decide⟩
  · show keccak256 (strBytes "mainnet_query_request_000000000000|" ++ b) = _
    rw [show strBytes "mainnet_query_request_000000000000|"
      = [109, 97, 105, 110, 110, 101, 116, 95, 113, 117, 101, 114, 121, 95,
         114, 101, 113, 117, 101, 115, 116, 95, 48, 48, 48, 48, 48, 48, 48,
         48, 48, 48, 48, 48, 124] from by decide]
  · show keccak256 (strBytes "testnet_query_request_000000000000|" ++ b) = _
    rw [show strBytes "testnet_query_request_000000000000|"
      = [116, 101, 115, 116, 110, 101, 116, 95, 113, 117, 101, 114, 121, 95,
         114, 101, 113, 117, 101, 115, 116, 95, 48, 48, 48, 48, 48, 48, 48,
         48, 48, 48, 48, 48, 124] from by decide]
  · show keccak256 (strBytes "devnet_query_request_0000000000000|" ++ b) = _
    rw [show strBytes "devnet_query_request_0000000000000|"
      = [100, 101, 118, 110, 101, 116, 95, 113, 117, 101, 114, 121, 95, 114,
         101, 113, 117, 101, 115, 116, 95, 48, 48, 48, 48, 48, 48, 48, 48,
         48, 48, 48, 48, 48, 124] from by decide]

/-- Claim C7: `adminGuardianSetUpdateToVAA` called with an empty guardian
list returns the error "empty guardian set specified" and no VAA, for every
timestamp, guardian-set index, nonce and sequence. -/
theorem adminGuardianSetUpdate_empty_rejected
    (timestamp guardianSetIndex nonce sequence : Nat) :
    adminGuardianSetUpdateToVAA ⟨[]⟩ timestamp guardianSetIndex nonce sequence
      = .error (strBytes "empty guardian set specified") := by
  rfl

set_option maxRecDepth 100000 in
/-- Claim C3 (the `PurgeVaas` implementation is modelled from the spec; only
its tests are in the snapshot): `PurgeVaas(prefix, older_than, dry_run=false)`
deletes exactly the stored VAAs under the `(chain, emitter)` prefix whose
timestamp is strictly before `older_than` and leaves every other stored VAA
unchanged; concretely, with 50 VAAs older than the cutoff and 75 newer for
one emitter (plus 125 for a second emitter), purging under the first
emitter with that cutoff keeps exactly its 75 newer VAAs and all 125 of the
second emitter. -/
theorem purgeVaas_deletes_exactly_old :
    (∀ (p : VAAIDPrefix) (olderThan : Nat) (store : List StoredVAA)
        (v : StoredVAA),
        v ∈ (PurgeVaas p olderThan false store).2 ↔
          v ∈ store ∧ ¬(prefixMatches p v = true ∧ v.timestamp < olderThan))
    ∧ (PurgeVaas ⟨1, some purgeDemoEmitter1⟩ 200 false purgeDemoStore).2
        = (List.range 75).map (fun i => ⟨1, purgeDemoEmitter1, 10050 + i, 300⟩)
          ++ (List.range 50).map (fun i => ⟨1, purgeDemoEmitter2, 10000 + i, 100⟩)
          ++ (List.range 75).map (fun i => ⟨1, purgeDemoEmitter2, 10050 + i, 300⟩)
    ∧ ((PurgeVaas ⟨1, some purgeDemoEmitter1⟩ 200 false
          purgeDemoStore).2.filter
        (fun v => v.emitterAddress == purgeDemoEmitter1)).length = 75
    ∧ (PurgeVaas ⟨1, some purgeDemoEmitter1⟩ 200 false
          purgeDemoStore).2.length = 200 := by
  refine ⟨?_, by decide, by decide, by decide⟩
  intro p olderThan store v
  have hdef : (PurgeVaas p olderThan false store).2
      = store.filter
        (fun v => !(prefixMatches p v && decide (v.timestamp < olderThan))) :=
    rfl
  rw [hdef, List.mem_filter]
  constructor
  · rintro ⟨hm, hp⟩
    refine ⟨hm, ?_⟩
    rintro ⟨h1, h2⟩
    rw [h1] at hp
    simp [h2] at hp
  · rintro ⟨hm, hp⟩
    refine ⟨hm, ?_⟩
    by_cases h1 : prefixMatches p v = true
    · by_cases h2 : v.timestamp < olderThan
      · exact absurd ⟨h1, h2⟩ hp
      · simp [h1, h2]
    · have hb : prefixMatches p v = false := by
        cases hb2 : prefixMatches p v
        · rfl
        · exact absurd hb2 h1
      simp [hb]

/-- Claim C2, counterexample: with two backfill nodes of which the first
answers HTTP 500 and the second would succeed, `fetchMissing` does not try
the next node but returns an error, and `FindMissingMessages` then fails as a
whole instead of returning a partial result; moreover two nodes of 600 ms
each show the 1-second timeout is shared by the whole node loop, not
per-node: the second node fails although its own latency is under a
second. -/
theorem fetchMissing_5xx_counterexample :
    fetchMissing [⟨0, .otherStatus 500⟩, ⟨0, .okVaa [1]⟩] = .failed
    ∧ findMissingBackfill
        (fun _ => fetchMissing [⟨0, .otherStatus 500⟩, ⟨0, .okVaa [1]⟩]) [7]
      = .error
    ∧ fetchMissing [⟨600, .notFound⟩, ⟨600, .okVaa [1]⟩] = .notFilled := by
  refine ⟨by decide, by decide, by decide⟩

/-- Claim C2, amended: `FindMissingMessages` with `rpc_backfill = true` calls
`fetchMissing` on the shuffled node list with a single 1-second deadline
shared by all nodes of one fetch; a transport error (including the shared
deadline expiring), a 404, or a malformed 200 body makes it try the next
node, while any other HTTP status (such as a 5xx) makes `fetchMissing` fail
and `FindMissingMessages` return an error for the whole RPC; when no fetch
fails, the RPC returns exactly the sequences no node filled (a partial
result). -/
theorem fetchMissing_behavior :
    (∀ (fetch : Nat → FetchOutcome) (ids : List Nat),
        (∀ id ∈ ids, fetch id ≠ .failed) →
        findMissingBackfill fetch ids
          = .ok (ids.filter (fun id => decide (fetch id = .notFilled))))
    ∧ (∀ (fetch : Nat → FetchOutcome) (ids : List Nat),
        findMissingBackfill fetch ids = .error ↔ ∃ id ∈ ids, fetch id = .failed)
    ∧ (∀ (lat c : Nat) (rest : List BackfillNode),
        lat ≤ 1000 →
        fetchMissing (⟨lat, .otherStatus c⟩ :: rest) = .failed)
    ∧ (∀ (n : BackfillNode) (rest : List BackfillNode) (elapsed : Nat),
        1000 < elapsed + n.latency →
        fetchMissingLoop (n :: rest) elapsed = fetchMissingLoop rest 1000) := by
  refine ⟨?_, ?_, ?_, ?_⟩
  · intro fetch ids
    induction ids with
    | nil => intro _; rfl
    | cons id rest ih =>
      intro h
      have hid := h id (by simp)
      cases hfetch : fetch id with
      | failed => exact absurd hfetch hid
      | filled b =>
        simp only [findMissingBackfill, hfetch, List.filter_cons]
        rw [ih (fun x hx => h x (by simp [hx]))]
        simp [hfetch]
      | notFilled =>
        simp only [findMissingBackfill, hfetch, List.filter_cons]
        rw [ih (fun x hx => h x (by simp [hx]))]
        simp [hfetch]
  · intro fetch ids
    induction ids with
    | nil => simp [findMissingBackfill]
    | cons id rest ih =>
      cases hfetch : fetch id with
      | failed =>
        simp only [findMissingBackfill, hfetch]
        constructor
        · intro _; exact ⟨id, by simp, hfetch⟩
        · intro _; trivial
      | filled b =>
        simp only [findMissingBackfill, hfetch]
        rw [ih]
        constructor
        · rintro ⟨x, hx, hfx⟩; exact ⟨x, by simp [hx], hfx⟩
        · rintro ⟨x, hx, hfx⟩
          rcases List.mem_cons.mp hx with h | h
          · subst h; rw [hfetch] at hfx; cases hfx
          · exact ⟨x, h, hfx⟩
      | notFilled =>
        cases hrec : findMissingBackfill fetch rest with
        | ok ms =>
          simp only [findMissingBackfill, hfetch, hrec]
          constructor
          · intro h; cases h
          · rintro ⟨x, hx, hfx⟩
            rcases List.mem_cons.mp hx with h | h
            · subst h; rw [hfetch] at hfx; cases hfx
            · have hcontra : findMissingBackfill fetch rest = .error :=
                ih.mpr ⟨x, h, hfx⟩
              rw [hrec] at hcontra; cases hcontra
        | error =>
          simp only [findMissingBackfill, hfetch, hrec]
          constructor
          · intro _
            rcases ih.mp hrec with ⟨x, hx, hfx⟩
            exact ⟨x, by simp [hx], hfx⟩
          · intro _; trivial
  · intro lat c rest h
    simp [fetchMissing, fetchMissingLoop, Nat.not_lt.mpr h]
  · intro n rest elapsed h
    cases hn : n.reply <;>
      simp [fetchMissingLoop, hn, h]

/-- Witness for the amended C2 theorem at concrete inputs. -/
theorem fetchMissing_behavior_witness :
    findMissingBackfill
        (fun id => if id == 1 then FetchOutcome.filled [] else .notFilled)
        [1, 2] = .ok [2]
    ∧ fetchMissing [⟨0, .otherStatus 503⟩] = .failed := by
  constructor
  · exact (fetchMissing_behavior.1
      (fun id => if id == 1 then FetchOutcome.filled [] else .notFilled)
      [1, 2] (by decide)).trans (by decide)
  · exact fetchMissing_behavior.2.2.1 0 503 [] (by decide)

/-- Claim C8: in the governor branch of `Processor.Run`, every entry returned
by `CheckPending` is re-checked with `IsGovernedMsg` before being published;
when all checks return true every entry is published, and when the check
errors or returns false for the entry at position `i`, exactly the first `i`
entries are published and the loop terminates with an error (supervised
restart) instead of continuing. -/
theorem processor_governor_recheck :
    (∀ (isGoverned : Nat → Option Bool) (entries : List Nat),
        (∀ k ∈ entries, isGoverned k = some true) →
        governorCheckPendingStep isGoverned entries
          = GovStepOutcome.ok entries)
    ∧ (∀ (isGoverned : Nat → Option Bool) (entries : List Nat) (i : Nat)
        (hi : i < entries.length),
        (∀ j (hj : j < i),
          isGoverned (entries.get ⟨j, hj.trans hi⟩) = some true) →
        isGoverned (entries.get ⟨i, hi⟩) ≠ some true →
        governorCheckPendingStep isGoverned entries
          = GovStepOutcome.fatal (entries.take i)) := by
  constructor
  · intro isGoverned entries
    induction entries with
    | nil => intro _; rfl
    | cons e rest ih =>
      intro h
      simp only [governorCheckPendingStep, h e (by simp)]
      rw [ih (fun x hx => h x (by simp [hx]))]
  · intro isGoverned entries
    induction entries with
    | nil =>
      intro i hi
      simp only [List.length_nil] at hi
      omega
    | cons e rest ih =>
      intro i hi hprev hbad
      cases i with
      | zero =>
        cases heq : isGoverned e with
        | none => simp [governorCheckPendingStep, heq]
        | some b =>
          cases b with
          | false => simp [governorCheckPendingStep, heq]
          | true => exact absurd heq hbad
      | succ i' =>
        have h0 : isGoverned e = some true := hprev 0 (Nat.succ_pos i')
        have hi' : i' < rest.length := by
          simpa using Nat.lt_of_succ_lt_succ hi
        have := ih i' hi' (fun j hj => hprev (j + 1) (Nat.succ_lt_succ hj))
          hbad
        simp only [governorCheckPendingStep, h0, this, List.take_succ_cons]

/-- Witness for the C8 theorem at a concrete input: with three pending
entries of which the third fails the re-check, only the first two are
published and the branch is fatal. -/
theorem processor_governor_recheck_witness :
    governorCheckPendingStep
        (fun k => if k ≤ 2 then some true else some false) [1, 2, 3]
      = GovStepOutcome.fatal [1, 2] := by
  have h := processor_governor_recheck.2
    (fun k => if k ≤ 2 then some true else some false) [1, 2, 3] 2
    (by simp)
    (by
      intro j hj
      interval_cases j <;> rfl)
    (by decide)
  exact h.trans (by decide)

/-! ### Validator characterizations -/

theorem saq_validate_iff (saq : SolanaAccountQueryRequest) :
    saq.Validate = true ↔
      saq.commitment = strBytes "finalized"
      ∧ 0 < saq.accounts.length ∧ saq.accounts.length ≤ 100
      ∧ (saq.dataSliceLength = 0 → saq.dataSliceOffset = 0)
      ∧ ∀ a ∈ saq.accounts, a.length = 32 := by
  unfold SolanaAccountQueryRequest.Validate
  split_ifs with h1 h2 h3 h4 h5
  · rw [false_iff]
    rintro ⟨hc, -⟩
    rw [hc] at h1
    exact absurd h1 (by decide)
  · rw [false_iff]
    rintro ⟨hc, -⟩
    rw [hc] at h2
    simp at h2
  · rw [false_iff]
    rintro ⟨-, -, -, hds, -⟩
    simp only [Bool.and_eq_true, beq_iff_eq, bne_iff_ne, ne_eq] at h3
    exact h3.2 (hds h3.1)
  · rw [false_iff]
    rintro ⟨-, hpos, -⟩
    simp only [beq_iff_eq] at h4
    omega
  · rw [false_iff]
    rintro ⟨-, -, hle, -⟩
    omega
  · constructor
    · intro h
      refine ⟨?_, ?_, ?_, ?_, ?_⟩
      · simpa using h2
      · simp only [beq_iff_eq] at h4
        omega
      · omega
      · intro hl0
        by_contra hoff
        exact h3 (by simp [hl0, hoff])
      · intro a ha
        simpa using List.all_eq_true.mp h a ha
    · rintro ⟨-, -, -, -, h32⟩
      exact List.all_eq_true.mpr (fun a ha => by simpa using h32 a ha)

theorem spda_validate_iff (spda : SolanaPdaQueryRequest) :
    spda.Validate = true ↔
      spda.commitment = strBytes "finalized"
      ∧ 0 < spda.pdas.length ∧ spda.pdas.length ≤ 100
      ∧ (spda.dataSliceLength = 0 → spda.dataSliceOffset = 0)
      ∧ ∀ pda ∈ spda.pdas,
          pda.programAddress.length = 32
          ∧ 0 < pda.seeds.length ∧ pda.seeds.length ≤ 16
          ∧ ∀ s ∈ pda.seeds, 0 < s.length ∧ s.length ≤ 32 := by
  unfold SolanaPdaQueryRequest.Validate
  split_ifs with h1 h2 h3 h4 h5
  · rw [false_iff]
    rintro ⟨hc, -⟩
    rw [hc] at h1
    exact absurd h1 (by decide)
  · rw [false_iff]
    rintro ⟨hc, -⟩
    rw [hc] at h2
    simp at h2
  · rw [false_iff]
    rintro ⟨-, -, -, hds, -⟩
    simp only [Bool.and_eq_true, beq_iff_eq, bne_iff_ne, ne_eq] at h3
    exact h3.2 (hds h3.1)
  · rw [false_iff]
    rintro ⟨-, hpos, -⟩
    simp only [beq_iff_eq] at h4
    omega
  · rw [false_iff]
    rintro ⟨-, -, hle, -⟩
    omega
  · constructor
    · intro h
      refine ⟨?_, ?_, ?_, ?_, ?_⟩
      · simpa using h2
      · simp only [beq_iff_eq] at h4
        omega
      · omega
      · intro hl0
        by_contra hoff
        exact h3 (by simp [hl0, hoff])
      · intro pda hpda
        have hp := List.all_eq_true.mp h pda hpda
        simp only [Bool.and_eq_true, beq_iff_eq, bne_iff_ne, ne_eq,
          Bool.not_eq_true', decide_eq_false_iff_not, not_lt,
          List.all_eq_true] at hp
        obtain ⟨⟨⟨h32, hne⟩, h16⟩, hseeds⟩ := hp
        refine ⟨h32, by omega, h16, ?_⟩
        intro s hs
        have := hseeds s hs
        omega
    · rintro ⟨-, -, -, -, hpdas⟩
      refine List.all_eq_true.mpr (fun pda hpda => ?_)
      obtain ⟨h32, hpos, h16, hseeds⟩ := hpdas pda hpda
      simp only [Bool.and_eq_true, beq_iff_eq, bne_iff_ne, ne_eq,
        Bool.not_eq_true', decide_eq_false_iff_not, not_lt,
        List.all_eq_true]
      refine ⟨⟨⟨h32, by omega⟩, h16⟩, ?_⟩
      intro s hs
      have := hseeds s hs
      omega

theorem perChainValidate_extract (known : Nat → Bool)
    (pcq : PerChainQueryRequest) (cq : ChainSpecificQuery)
    (hq : pcq.query = some cq) :
    pcq.Validate known = true ↔
      known pcq.chainId = true ∧ cq.Validate = true := by
  unfold PerChainQueryRequest.Validate
  rw [hq]
  cases hk : known pcq.chainId
  · simp
  · cases cq <;>
      simp [ValidatePerChainQueryRequestType, ChainSpecificQuery.typeCode,
        ChainSpecificQuery.Validate]

theorem perChainValidate_none (known : Nat → Bool)
    (pcq : PerChainQueryRequest) (hq : pcq.query = none) :
    pcq.Validate known = false := by
  unfold PerChainQueryRequest.Validate
  rw [hq]
  cases hk : known pcq.chainId <;> simp

theorem qrValidate_extract (known : Nat → Bool) (qr : QueryRequest) :
    qr.Validate known = true ↔
      0 < qr.perChainQueries.length ∧ qr.perChainQueries.length ≤ 255
      ∧ ∀ pcq ∈ qr.perChainQueries, pcq.Validate known = true := by
  unfold QueryRequest.Validate
  split_ifs with h1 h2
  · rw [false_iff]
    rintro ⟨hpos, -⟩
    simp only [beq_iff_eq] at h1
    omega
  · rw [false_iff]
    rintro ⟨-, hle, -⟩
    omega
  · simp only [beq_iff_eq] at h1
    rw [List.all_eq_true]
    constructor
    · intro h
      exact ⟨by omega, by omega, h⟩
    · rintro ⟨-, -, h⟩
      exact h

theorem perChain_valid_iff_claimed (known : Nat → Bool)
    (pcq : PerChainQueryRequest) (hw : pcq.GoWellTyped = true) :
    pcq.Validate known = true ↔ SpecClaimedPerChainValid known pcq := by
  cases hq : pcq.query with
  | none =>
    rw [perChainValidate_none known pcq hq]
    unfold SpecClaimedPerChainValid
    rw [hq]
    simp
  | some cq =>
    rw [perChainValidate_extract known pcq cq hq]
    unfold SpecClaimedPerChainValid
    rw [hq]
    have hw' := hw
    unfold PerChainQueryRequest.GoWellTyped at hw'
    rw [hq] at hw'
    cases cq with
    | solAccount saq =>
      simp only [ChainSpecificQuery.Validate]
      rw [saq_validate_iff]
      simp only [Bool.and_eq_true, decide_eq_true_eq] at hw'
      constructor
      · rintro ⟨hk, hc, hpos, hle, hds, -⟩
        exact ⟨hk, by rw [hc]; decide, hc, hds, by omega, hle⟩
      · rintro ⟨hk, -, hc, hds, hpos, hle⟩
        refine ⟨hk, hc, by omega, hle, hds, ?_⟩
        intro a ha
        have := hw'.2
        unfold SolanaAccountQueryRequest.GoWellTyped at this
        simp only [Bool.and_eq_true, decide_eq_true_eq,
          List.all_eq_true] at this
        simpa using this.2 a ha
    | solPda spda =>
      simp only [ChainSpecificQuery.Validate]
      rw [spda_validate_iff]
      simp only [Bool.and_eq_true, decide_eq_true_eq] at hw'
      constructor
      · rintro ⟨hk, hc, hpos, hle, hds, hpdas⟩
        refine ⟨hk, by rw [hc]; decide, hc, hds, by omega, hle, ?_⟩
        intro pda hpda
        obtain ⟨-, hspos, hsle, hseeds⟩ := hpdas pda hpda
        refine ⟨by omega, hsle, ?_⟩
        intro s hs
        have := hseeds s hs
        omega
      · rintro ⟨hk, -, hc, hds, hpos, hle, hpdas⟩
        refine ⟨hk, hc, by omega, hle, hds, ?_⟩
        intro pda hpda
        obtain ⟨hspos, hsle, hseeds⟩ := hpdas pda hpda
        have h32 : pda.programAddress.length = 32 := by
          have := hw'.2
          unfold SolanaPdaQueryRequest.GoWellTyped at this
          simp only [Bool.and_eq_true, decide_eq_true_eq,
            List.all_eq_true] at this
          simpa using this.2 pda hpda
        refine ⟨h32, by omega, hsle, ?_⟩
        intro s hs
        have := hseeds s hs
        omega

/-- Claim C4: the CCQ validator (invoked by both `Marshal` and `Unmarshal`)
accepts a Go-typed `QueryRequest` if and only if it has at least one and at
most 255 per-chain queries, and every per-chain query has a known chain id
and a non-nil `sol_account` (4) or `sol_pda` (5) query whose commitment is at
most 12 bytes and exactly "finalized", whose data-slice offset is zero
whenever the data-slice length is zero, with between 1 and 100 accounts or
PDAs, and — for PDA queries — 1 to 16 seeds of 1 to 32 bytes each per PDA
(the known-chain table is a parameter, its defining SDK file not being in
the snapshot). -/
theorem ccq_validate_iff (known : Nat → Bool) (q : QueryRequest)
    (hw : q.GoWellTyped = true) :
    QueryRequest.Validate known q = true ↔
      1 ≤ q.perChainQueries.length ∧ q.perChainQueries.length ≤ 255
      ∧ ∀ pcq ∈ q.perChainQueries, SpecClaimedPerChainValid known pcq := by
  rw [qrValidate_extract]
  have hw' := hw
  unfold QueryRequest.GoWellTyped at hw'
  simp only [Bool.and_eq_true, decide_eq_true_eq, List.all_eq_true] at hw'
  constructor
  · rintro ⟨hpos, hle, h⟩
    refine ⟨by omega, hle, fun pcq hpcq => ?_⟩
    exact (perChain_valid_iff_claimed known pcq (hw'.2 pcq hpcq)).mp
      (h pcq hpcq)
  · rintro ⟨hpos, hle, h⟩
    refine ⟨by omega, hle, fun pcq hpcq => ?_⟩
    exact (perChain_valid_iff_claimed known pcq (hw'.2 pcq hpcq)).mpr
      (h pcq hpcq)

/-- Witness for the C4 theorem: the demo request is Go-typed, and the
characterization instantiates to it. -/
theorem ccq_validate_iff_witness :
    QueryRequest.GoWellTyped demoQueryRequest = true
    ∧ (QueryRequest.Validate (fun _ => true) demoQueryRequest = true ↔
        1 ≤ demoQueryRequest.perChainQueries.length
        ∧ demoQueryRequest.perChainQueries.length ≤ 255
        ∧ ∀ pcq ∈ demoQueryRequest.perChainQueries,
            SpecClaimedPerChainValid (fun _ => true) pcq) :=
  ⟨by decide, ccq_validate_iff (fun _ => true) demoQueryRequest (by decide)⟩

/-! ### Parse-of-marshal lemmas -/

theorem parseAccounts_marshal (accts : List (List Nat)) (rest : List Nat)
    (h : ∀ a ∈ accts, a.length = 32) :
    parseAccounts accts.length (accts.flatten ++ rest) = some (accts, rest) := by
  induction accts with
  | nil => simp [parseAccounts]
  | cons a as ih =>
    have ha : a.length = 32 := h a (by simp)
    have ih' := ih (fun x hx => h x (by simp [hx]))
    simp only [List.length_cons, List.flatten_cons, List.append_assoc,
      parseAccounts, goRead_append 32 a (as.flatten ++ rest) (by omega) ha,
      ih']

theorem parseSeeds_marshal (seeds : List (List Nat)) (rest : List Nat)
    (h : ∀ s ∈ seeds, 0 < s.length ∧ s.length ≤ 32) :
    parseSeeds seeds.length
      ((seeds.map (fun s => natToBytesBE 4 s.length ++ s)).flatten ++ rest)
      = some (seeds, rest) := by
  induction seeds with
  | nil => simp [parseSeeds]
  | cons s ss ih =>
    obtain ⟨hpos, hle⟩ := h s (by simp)
    have ih' := ih (fun x hx => h x (by simp [hx]))
    simp only [List.length_cons, List.map_cons, List.flatten_cons,
      List.append_assoc, parseSeeds,
      readBE_append_of_lt 4 s.length _ (lt_of_le_of_lt hle (by norm_num)),
      goRead_append s.length s _ hpos rfl, ih']

theorem parsePDAs_marshal (pdas : List SolanaPDAEntry) (rest : List Nat)
    (h : ∀ p ∈ pdas, p.programAddress.length = 32
      ∧ 0 < p.seeds.length ∧ p.seeds.length ≤ 16
      ∧ ∀ s ∈ p.seeds, 0 < s.length ∧ s.length ≤ 32) :
    parsePDAs pdas.length
      ((pdas.map SolanaPDAEntry.MarshalBytes).flatten ++ rest)
      = some (pdas, rest) := by
  induction pdas with
  | nil => simp [parsePDAs]
  | cons p ps ih =>
    obtain ⟨h32, hpos, hle, hseeds⟩ := h p (by simp)
    have ih' := ih (fun x hx => h x (by simp [hx]))
    simp only [List.length_cons, List.map_cons, List.flatten_cons,
      List.append_assoc, parsePDAs, SolanaPDAEntry.MarshalBytes,
      goRead_append 32 p.programAddress _ (by omega) h32,
      readBE_append_of_lt 1 p.seeds.length _
        (lt_of_le_of_lt hle (by norm_num)),
      parseSeeds_marshal p.seeds _ hseeds, ih']

theorem saqParse_marshalBody (saq : SolanaAccountQueryRequest)
    (rest : List Nat) (hv : saq.Validate = true)
    (hw : saq.GoWellTyped = true) :
    SolanaAccountQueryRequest.Parse (saq.MarshalBody ++ rest)
      = some (saq, rest) := by
  obtain ⟨hc, hpos, hle, hds, h32⟩ := (saq_validate_iff saq).mp hv
  have hw' := hw
  unfold SolanaAccountQueryRequest.GoWellTyped at hw'
  simp only [Bool.and_eq_true, decide_eq_true_eq] at hw'
  have hmcs : saq.minContextSlot < 2 ^ 64 := by tauto
  have hdso : saq.dataSliceOffset < 2 ^ 64 := by tauto
  have hdsl : saq.dataSliceLength < 2 ^ 64 := by tauto
  have hclen : saq.commitment.length = 9 := by rw [hc]; decide
  have h64 : (2 : Nat) ^ 64 = 256 ^ 8 := by norm_num
  simp only [SolanaAccountQueryRequest.MarshalBody,
    SolanaAccountQueryRequest.Parse, List.append_assoc,
    readBE_append_of_lt 4 saq.commitment.length _ (by rw [hclen]; norm_num),
    if_neg (show ¬(saq.commitment.length > 12) from by omega),
    goRead_append saq.commitment.length saq.commitment _ (by omega) rfl,
    readBE_append_of_lt 8 saq.minContextSlot _ (h64 ▸ hmcs),
    readBE_append_of_lt 8 saq.dataSliceOffset _ (h64 ▸ hdso),
    readBE_append_of_lt 8 saq.dataSliceLength _ (h64 ▸ hdsl),
    readBE_append_of_lt 1 saq.accounts.length _
      (lt_of_le_of_lt hle (by norm_num)),
    parseAccounts_marshal saq.accounts rest h32]

theorem spdaParse_marshalBody (spda : SolanaPdaQueryRequest)
    (rest : List Nat) (hv : spda.Validate = true)
    (hw : spda.GoWellTyped = true) :
    SolanaPdaQueryRequest.Parse (spda.MarshalBody ++ rest)
      = some (spda, rest) := by
  obtain ⟨hc, hpos, hle, hds, hpdas⟩ := (spda_validate_iff spda).mp hv
  have hw' := hw
  unfold SolanaPdaQueryRequest.GoWellTyped at hw'
  simp only [Bool.and_eq_true, decide_eq_true_eq] at hw'
  have hmcs : spda.minContextSlot < 2 ^ 64 := by tauto
  have hdso : spda.dataSliceOffset < 2 ^ 64 := by tauto
  have hdsl : spda.dataSliceLength < 2 ^ 64 := by tauto
  have hclen : spda.commitment.length = 9 := by rw [hc]; decide
  have h64 : (2 : Nat) ^ 64 = 256 ^ 8 := by norm_num
  simp only [SolanaPdaQueryRequest.MarshalBody,
    SolanaPdaQueryRequest.Parse, List.append_assoc,
    readBE_append_of_lt 4 spda.commitment.length _ (by rw [hclen]; norm_num),
    if_neg (show ¬(spda.commitment.length > 12) from by omega),
    goRead_append spda.commitment.length spda.commitment _ (by omega) rfl,
    readBE_append_of_lt 8 spda.minContextSlot _ (h64 ▸ hmcs),
    readBE_append_of_lt 8 spda.dataSliceOffset _ (h64 ▸ hdso),
    readBE_append_of_lt 8 spda.dataSliceLength _ (h64 ▸ hdsl),
    readBE_append_of_lt 1 spda.pdas.length _
      (lt_of_le_of_lt hle (by norm_num)),
    parsePDAs_marshal spda.pdas rest hpdas]

theorem saq_marshalBody_length_le (saq : SolanaAccountQueryRequest)
    (hv : saq.Validate = true) : saq.MarshalBody.length ≤ 4000 := by
  obtain ⟨hc, hpos, hle, hds, h32⟩ := (saq_validate_iff saq).mp hv
  have hclen : saq.commitment.length = 9 := by rw [hc]; decide
  have hfl : saq.accounts.flatten.length ≤ saq.accounts.length * 32 :=
    flatten_length_le _ _ (fun a ha => (h32 a ha).le)
  have hmul : saq.accounts.length * 32 ≤ 100 * 32 :=
    Nat.mul_le_mul hle (Nat.le_refl 32)
  unfold SolanaAccountQueryRequest.MarshalBody
  simp only [List.length_append, length_natToBytesBE]
  omega

theorem spda_entry_length_le (p : SolanaPDAEntry)
    (h32 : p.programAddress.length = 32) (hle : p.seeds.length ≤ 16)
    (hseeds : ∀ s ∈ p.seeds, 0 < s.length ∧ s.length ≤ 32) :
    p.MarshalBytes.length ≤ 609 := by
  have hfl : ((p.seeds.map
      (fun s => natToBytesBE 4 s.length ++ s)).flatten).length
      ≤ p.seeds.length * 36 := by
    have := flatten_length_le
      (p.seeds.map (fun s => natToBytesBE 4 s.length ++ s)) 36
      (fun x hx => by
        obtain ⟨s, hs, rfl⟩ := List.mem_map.mp hx
        simp only [List.length_append, length_natToBytesBE]
        have := (hseeds s hs).2
        omega)
    simpa using this
  have hmul : p.seeds.length * 36 ≤ 16 * 36 :=
    Nat.mul_le_mul hle (Nat.le_refl 36)
  unfold SolanaPDAEntry.MarshalBytes
  simp only [List.length_append, length_natToBytesBE]
  omega

theorem spda_marshalBody_length_le (spda : SolanaPdaQueryRequest)
    (hv : spda.Validate = true) : spda.MarshalBody.length ≤ 61000 := by
  obtain ⟨hc, hpos, hle, hds, hpdas⟩ := (spda_validate_iff spda).mp hv
  have hclen : spda.commitment.length = 9 := by rw [hc]; decide
  have hfl : ((spda.pdas.map SolanaPDAEntry.MarshalBytes).flatten).length
      ≤ spda.pdas.length * 609 := by
    have := flatten_length_le (spda.pdas.map SolanaPDAEntry.MarshalBytes) 609
      (fun x hx => by
        obtain ⟨p, hp, rfl⟩ := List.mem_map.mp hx
        obtain ⟨h32, hspos, hsle, hseeds⟩ := hpdas p hp
        exact spda_entry_length_le p h32 hsle hseeds)
    simpa using this
  have hmul : spda.pdas.length * 609 ≤ 100 * 609 :=
    Nat.mul_le_mul hle (Nat.le_refl 609)
  unfold SolanaPdaQueryRequest.MarshalBody
  simp only [List.length_append, length_natToBytesBE]
  omega

theorem cq_marshal_some (cq : ChainSpecificQuery) (hv : cq.Validate = true) :
    ∃ body, cq.Marshal = some body ∧ body.length ≤ 2 ^ 32 - 1 := by
  have hp : (2 : Nat) ^ 32 - 1 = 4294967295 := by norm_num
  cases cq with
  | solAccount saq =>
    have hv' : saq.Validate = true := hv
    refine ⟨saq.MarshalBody, ?_, ?_⟩
    · simp [ChainSpecificQuery.Marshal, SolanaAccountQueryRequest.Marshal,
        hv']
    · have := saq_marshalBody_length_le saq hv'
      omega
  | solPda spda =>
    have hv' : spda.Validate = true := hv
    refine ⟨spda.MarshalBody, ?_, ?_⟩
    · simp [ChainSpecificQuery.Marshal, SolanaPdaQueryRequest.Marshal, hv']
    · have := spda_marshalBody_length_le spda hv'
      omega

theorem perChainParse_any_len (known : Nat → Bool)
    (pcq : PerChainQueryRequest) (cq : ChainSpecificQuery)
    (body : List Nat) (L : Nat) (rest : List Nat)
    (hq : pcq.query = some cq) (hv : pcq.Validate known = true)
    (hw : pcq.GoWellTyped = true) (hbody : cq.Marshal = some body)
    (hL : L < 2 ^ 32) :
    PerChainQueryRequest.Parse
      (natToBytesBE 2 pcq.chainId ++ natToBytesBE 1 cq.typeCode
        ++ natToBytesBE 4 L ++ body ++ rest) = some (pcq, rest) := by
  have hcid : pcq.chainId < 2 ^ 16 := by
    have hw' := hw
    unfold PerChainQueryRequest.GoWellTyped at hw'
    simp only [Bool.and_eq_true, decide_eq_true_eq] at hw'
    tauto
  have hcv : cq.Validate = true :=
    ((perChainValidate_extract known pcq cq hq).mp hv).2
  have h16 : (2 : Nat) ^ 16 = 256 ^ 2 := by norm_num
  have h32' : (2 : Nat) ^ 32 = 256 ^ 4 := by norm_num
  cases cq with
  | solAccount saq =>
    have hbody' : saq.Marshal = some body := hbody
    have hsv : saq.Validate = true := hcv
    have hb : body = saq.MarshalBody := by
      unfold SolanaAccountQueryRequest.Marshal at hbody'
      rw [if_pos hsv] at hbody'
      exact (Option.some.inj hbody').symm
    have hsw : saq.GoWellTyped = true := by
      have hw' := hw
      unfold PerChainQueryRequest.GoWellTyped at hw'
      rw [hq] at hw'
      simp only [Bool.and_eq_true, decide_eq_true_eq] at hw'
      tauto
    subst hb
    simp only [PerChainQueryRequest.Parse, List.append_assoc,
      ChainSpecificQuery.typeCode,
      readBE_append_of_lt 2 pcq.chainId _ (h16 ▸ hcid),
      readBE_append_of_lt 1 4 _ (by norm_num),
      readBE_append_of_lt 4 L _ (h32' ▸ hL),
      saqParse_marshalBody saq rest hsv hsw]
    simp only [ValidatePerChainQueryRequestType]
    norm_num
    rw [← hq]
  | solPda spda =>
    have hbody' : spda.Marshal = some body := hbody
    have hsv : spda.Validate = true := hcv
    have hb : body = spda.MarshalBody := by
      unfold SolanaPdaQueryRequest.Marshal at hbody'
      rw [if_pos hsv] at hbody'
      exact (Option.some.inj hbody').symm
    have hsw : spda.GoWellTyped = true := by
      have hw' := hw
      unfold PerChainQueryRequest.GoWellTyped at hw'
      rw [hq] at hw'
      simp only [Bool.and_eq_true, decide_eq_true_eq] at hw'
      tauto
    subst hb
    simp only [PerChainQueryRequest.Parse, List.append_assoc,
      ChainSpecificQuery.typeCode,
      readBE_append_of_lt 2 pcq.chainId _ (h16 ▸ hcid),
      readBE_append_of_lt 1 5 _ (by norm_num),
      readBE_append_of_lt 4 L _ (h32' ▸ hL),
      spdaParse_marshalBody spda rest hsv hsw]
    simp only [ValidatePerChainQueryRequestType]
    norm_num
    rw [← hq]

theorem perChainMarshal_eq (known : Nat → Bool)
    (pcq : PerChainQueryRequest) (bs : List Nat)
    (h : pcq.Marshal known = some bs) :
    ∃ cq body, pcq.query = some cq ∧ cq.Marshal = some body
      ∧ pcq.Validate known = true ∧ body.length ≤ 2 ^ 32 - 1
      ∧ bs = natToBytesBE 2 pcq.chainId ++ natToBytesBE 1 cq.typeCode
          ++ natToBytesBE 4 body.length ++ body := by
  unfold PerChainQueryRequest.Marshal at h
  cases hv : pcq.Validate known with
  | false => simp [hv] at h
  | true =>
    simp only [hv, Bool.not_true, Bool.false_eq_true, if_false] at h
    cases hq : pcq.query with
    | none => simp only [hq] at h; simp at h
    | some cq =>
      simp only [hq] at h
      cases hb : cq.Marshal with
      | none => simp only [hb] at h; simp at h
      | some qb =>
        simp only [hb] at h
        by_cases hlen : qb.length > 2 ^ 32 - 1
        · rw [if_pos hlen] at h; simp at h
        · rw [if_neg hlen] at h
          exact ⟨cq, qb, rfl, hb, rfl, by omega, (Option.some.inj h).symm⟩

theorem perChainMarshal_some (known : Nat → Bool)
    (pcq : PerChainQueryRequest) (hv : pcq.Validate known = true) :
    ∃ bs, pcq.Marshal known = some bs := by
  cases hq : pcq.query with
  | none => rw [perChainValidate_none known pcq hq] at hv; cases hv
  | some cq =>
    have hcv : cq.Validate = true :=
      ((perChainValidate_extract known pcq cq hq).mp hv).2
    obtain ⟨body, hb, hlen⟩ := cq_marshal_some cq hcv
    refine ⟨natToBytesBE 2 pcq.chainId ++ natToBytesBE 1 cq.typeCode
      ++ natToBytesBE 4 body.length ++ body, ?_⟩
    simp only [PerChainQueryRequest.Marshal, hq, hb, hv, Bool.not_true,
      Bool.false_eq_true, if_false]
    rw [if_neg (by omega)]

theorem marshalPerChainList_some (known : Nat → Bool) :
    ∀ (pcqs : List PerChainQueryRequest),
      (∀ pcq ∈ pcqs, pcq.Validate known = true) →
      ∃ bs, marshalPerChainList known pcqs = some bs := by
  intro pcqs
  induction pcqs with
  | nil => exact fun _ => ⟨[], rfl⟩
  | cons pcq ps ih =>
    intro h
    obtain ⟨b, hb⟩ := perChainMarshal_some known pcq (h pcq (by simp))
    obtain ⟨bs, hbs⟩ := ih (fun x hx => h x (by simp [hx]))
    exact ⟨b ++ bs, by simp only [marshalPerChainList, hb, hbs]⟩

theorem parsePerChainList_marshal (known : Nat → Bool) :
    ∀ (pcqs : List PerChainQueryRequest) (bs rest : List Nat),
      marshalPerChainList known pcqs = some bs →
      (∀ pcq ∈ pcqs, pcq.GoWellTyped = true) →
      parsePerChainQueries pcqs.length (bs ++ rest) = some (pcqs, rest) := by
  intro pcqs
  induction pcqs with
  | nil =>
    intro bs rest h _
    simp only [marshalPerChainList] at h
    obtain rfl := (Option.some.inj h)
    simp [parsePerChainQueries]
  | cons pcq ps ih =>
    intro bs rest h hw
    unfold marshalPerChainList at h
    cases hm : pcq.Marshal known with
    | none => simp only [hm] at h; simp at h
    | some b =>
      cases hps : marshalPerChainList known ps with
      | none => simp only [hm, hps] at h; simp at h
      | some bs2 =>
        simp only [hm, hps] at h
        obtain rfl := (Option.some.inj h)
        obtain ⟨cq, body, hq, hbody, hv, hlen, hbs⟩ :=
          perChainMarshal_eq known pcq b hm
        have hpw : pcq.GoWellTyped = true := hw pcq (by simp)
        have h4 : (2 : Nat) ^ 32 - 1 < 2 ^ 32 := by norm_num
        have hparse := perChainParse_any_len known pcq cq body body.length
          (bs2 ++ rest) hq hv hpw hbody (by omega)
        have hih := ih bs2 rest hps (fun x hx => hw x (by simp [hx]))
        simp only [List.append_assoc] at hparse
        simp only [List.length_cons, parsePerChainQueries, hbs,
          List.append_assoc, hparse, hih]

theorem qr_marshal_some (known : Nat → Bool) (qr : QueryRequest)
    (hv : qr.Validate known = true) :
    ∃ bs, qr.Marshal known = some bs := by
  obtain ⟨-, -, hall⟩ := (qrValidate_extract known qr).mp hv
  obtain ⟨pcs, hpcs⟩ := marshalPerChainList_some known qr.perChainQueries hall
  refine ⟨natToBytesBE 1 1 ++ natToBytesBE 4 qr.nonce
    ++ natToBytesBE 1 qr.perChainQueries.length ++ pcs, ?_⟩
  simp only [QueryRequest.Marshal, hv, Bool.not_true, Bool.false_eq_true,
    if_false, hpcs]

/-! ### Structural equality is reflexive -/

theorem saq_equal_refl (x : SolanaAccountQueryRequest) :
    x.Equal x = true := by
  unfold SolanaAccountQueryRequest.Equal
  simp only [bne_self_eq_false, Bool.or_self, Bool.false_or, if_false,
    Bool.false_eq_true]
  exact zip_self_all _ _ (fun a _ => by simp)

theorem spda_equal_refl (x : SolanaPdaQueryRequest) : x.Equal x = true := by
  unfold SolanaPdaQueryRequest.Equal
  simp only [bne_self_eq_false, Bool.or_self, Bool.false_or, if_false,
    Bool.false_eq_true]
  exact zip_self_all _ _ (fun pda _ => by
    have hz := zip_self_all pda.seeds (fun s => s.1 == s.2)
      (fun s _ => by simp)
    simp [hz])

theorem perChain_equal_refl (x : PerChainQueryRequest) :
    x.Equal x = true := by
  unfold PerChainQueryRequest.Equal
  simp only [bne_self_eq_false, if_false, Bool.false_eq_true]
  cases hq : x.query with
  | none => rfl
  | some cq => cases cq with
    | solAccount saq => exact saq_equal_refl saq
    | solPda spda => exact spda_equal_refl spda

theorem qr_equal_refl (x : QueryRequest) : x.Equal x = true := by
  unfold QueryRequest.Equal
  simp only [bne_self_eq_false, if_false, Bool.false_eq_true]
  exact zip_self_all _ _ (fun p _ => perChain_equal_refl p)

theorem qr_unmarshal_pipeline (known : Nat → Bool) (qr : QueryRequest)
    (bs rest : List Nat) (hm : qr.Marshal known = some bs)
    (hw : qr.GoWellTyped = true) :
    QueryRequest.Unmarshal known (bs ++ rest)
      = if rest.isEmpty then some qr else none := by
  unfold QueryRequest.Marshal at hm
  cases hval : qr.Validate known with
  | false => simp only [hval, Bool.not_false, if_true] at hm; simp at hm
  | true =>
    simp only [hval, Bool.not_true, Bool.false_eq_true, if_false] at hm
    cases hpcs : marshalPerChainList known qr.perChainQueries with
    | none => simp only [hpcs] at hm; simp at hm
    | some pcs =>
      simp only [hpcs] at hm
      obtain rfl := (Option.some.inj hm)
      obtain ⟨hpos, hle, hall⟩ := (qrValidate_extract known qr).mp hval
      have hw' := hw
      unfold QueryRequest.GoWellTyped at hw'
      simp only [Bool.and_eq_true, decide_eq_true_eq,
        List.all_eq_true] at hw'
      have hn : qr.nonce < 2 ^ 32 := by tauto
      have hwn : qr.nonce < 256 ^ 4 :=
        (by norm_num : (2 : Nat) ^ 32 = 256 ^ 4) ▸ hn
      have hws : ∀ pcq ∈ qr.perChainQueries, pcq.GoWellTyped = true :=
        fun pcq hp => hw'.2 pcq hp
      have hcnt : qr.perChainQueries.length < 256 ^ 1 := by
        rw [pow_one]; omega
      have hparse := parsePerChainList_marshal known qr.perChainQueries pcs
        rest hpcs hws
      simp only [QueryRequest.Unmarshal, List.append_assoc,
        readBE_append_of_lt 1 1 _ (by norm_num),
        readBE_append_of_lt 4 qr.nonce _ hwn,
        readBE_append_of_lt 1 qr.perChainQueries.length _ hcnt,
        hparse, bne_self_eq_false, Bool.false_eq_true, if_false]
      have heta : (⟨qr.nonce, qr.perChainQueries⟩ : QueryRequest) = qr := rfl
      cases hrest : rest.isEmpty with
      | false => simp [hrest]
      | true => simp [hrest, heta, hval]

/-- Claim C1: for every Go-typed CCQ `QueryRequest` that passes `Validate`,
`Marshal` succeeds and `Unmarshal` of the marshaled bytes succeeds, yielding
a request `Equal` to the original (here: the original itself, which `Equal`
accepts); and for every request failing `Validate`, `Marshal` returns an
error — encode refuses invalid inputs via the same validator that decode
applies. -/
theorem ccq_marshal_roundtrip (known : Nat → Bool) (q : QueryRequest)
    (hw : q.GoWellTyped = true) :
    (q.Validate known = true →
      ∃ bs, q.Marshal known = some bs
        ∧ QueryRequest.Unmarshal known bs = some q
        ∧ q.Equal q = true)
    ∧ (q.Validate known = false → q.Marshal known = none) := by
  constructor
  · intro hv
    obtain ⟨bs, hbs⟩ := qr_marshal_some known q hv
    refine ⟨bs, hbs, ?_, qr_equal_refl q⟩
    have := qr_unmarshal_pipeline known q bs [] hbs hw
    simpa using this
  · intro hv
    unfold QueryRequest.Marshal
    rw [if_pos (by simp [hv])]

/-- Witness for the C1 theorem at the demo request. -/
theorem ccq_marshal_roundtrip_witness :
    QueryRequest.GoWellTyped demoQueryRequest = true
    ∧ (∃ bs,
        QueryRequest.Marshal (fun _ => true) demoQueryRequest = some bs
        ∧ QueryRequest.Unmarshal (fun _ => true) bs = some demoQueryRequest
        ∧ QueryRequest.Equal demoQueryRequest demoQueryRequest = true) :=
  ⟨by decide,
   (ccq_marshal_roundtrip (fun _ => true) demoQueryRequest (by decide)).1
     (by decide)⟩

/-- Claim C9: `QueryRequest.Unmarshal` rejects any input with extra bytes
after the declared number of per-chain queries: appending any nonempty
trailing garbage to a valid encoding makes `Unmarshal` fail (the reader must
be exactly exhausted). -/
theorem ccq_unmarshal_rejects_trailing (known : Nat → Bool)
    (q : QueryRequest) (bs extra : List Nat) (hw : q.GoWellTyped = true)
    (hm : q.Marshal known = some bs) (hne : extra ≠ []) :
    QueryRequest.Unmarshal known (bs ++ extra) = none := by
  have hp := qr_unmarshal_pipeline known q bs extra hm hw
  rw [hp, if_neg (by intro h; exact hne (List.isEmpty_iff.mp h))]

/-- Witness for the C9 theorem: one trailing zero byte after the demo
encoding is rejected. -/
theorem ccq_unmarshal_rejects_trailing_witness :
    QueryRequest.Unmarshal (fun _ => true)
        ((QueryRequest.Marshal (fun _ => true) demoQueryRequest).getD []
          ++ [0]) = none :=
  ccq_unmarshal_rejects_trailing (fun _ => true) demoQueryRequest
    ((QueryRequest.Marshal (fun _ => true) demoQueryRequest).getD []) [0]
    (by decide) (by decide) (by decide)

/-- Claim C10: `PerChainQueryRequest.UnmarshalFromReader` reads the `uint32`
`query_len` field but never checks it against the body: overwriting the
length field of a valid per-chain encoding (bytes 3 to 6) with any `uint32`
value still decodes successfully — purely structurally — to the original
(hence `Equal`) per-chain request. -/
theorem perChain_queryLen_ignored (known : Nat → Bool)
    (pcq : PerChainQueryRequest) (bs : List Nat) (L : Nat)
    (hw : pcq.GoWellTyped = true) (hm : pcq.Marshal known = some bs)
    (hL : L < 2 ^ 32) :
    PerChainQueryRequest.Parse
        (bs.take 3 ++ natToBytesBE 4 L ++ bs.drop 7) = some (pcq, [])
    ∧ pcq.Equal pcq = true := by
  obtain ⟨cq, body, hq, hbody, hv, hlen, hbs⟩ :=
    perChainMarshal_eq known pcq bs hm
  subst hbs
  have ht : (natToBytesBE 2 pcq.chainId ++ natToBytesBE 1 cq.typeCode
      ++ natToBytesBE 4 body.length ++ body).take 3
      = natToBytesBE 2 pcq.chainId ++ natToBytesBE 1 cq.typeCode := by
    rw [List.append_assoc
      (natToBytesBE 2 pcq.chainId ++ natToBytesBE 1 cq.typeCode)
      (natToBytesBE 4 body.length) body]
    exact List.take_left' (by simp [length_natToBytesBE])
  have hd : (natToBytesBE 2 pcq.chainId ++ natToBytesBE 1 cq.typeCode
      ++ natToBytesBE 4 body.length ++ body).drop 7 = body :=
    List.drop_left' (by simp [length_natToBytesBE])
  rw [ht, hd]
  refine ⟨?_, perChain_equal_refl pcq⟩
  have hparse := perChainParse_any_len known pcq cq body L [] hq hv hw
    hbody hL
  rw [List.append_nil] at hparse
  simpa [List.append_assoc] using hparse

/-- Witness for the C10 theorem: replacing the demo per-chain encoding's
length field with 999 still decodes to the demo request. -/
theorem perChain_queryLen_ignored_witness :
    PerChainQueryRequest.Parse
        (((PerChainQueryRequest.Marshal (fun _ => true)
            demoPerChainReq).getD []).take 3
          ++ natToBytesBE 4 999
          ++ ((PerChainQueryRequest.Marshal (fun _ => true)
            demoPerChainReq).getD []).drop 7)
      = some (demoPerChainReq, [])
    ∧ PerChainQueryRequest.Equal demoPerChainReq demoPerChainReq = true :=
  perChain_queryLen_ignored (fun _ => true) demoPerChainReq
    ((PerChainQueryRequest.Marshal (fun _ => true) demoPerChainReq).getD [])
    999 (by decide) (by decide) (by decide)
